import Mathlib

/-!
# Memory-management unit of the Worldwide emulator (`pkg/emulator/ram.go`)

A shallow embedding of `FetchMemory8`, `SetMemory8` and `switchROMBank`.

* Bytes and 16-bit addresses are natural numbers; every place where the Go code
  computes in `uint8` or `uint16` carries an explicit `% 256` or `% 65536`.
* The arrays (`RAM`, `ROMBank`, `RAMBank`, `WRAMBank`, `VRAMBank`, the palettes) are
  total maps from indices to bytes. Their dimensions are declared outside `ram.go`,
  so index-out-of-range failures are not part of this model.
* The reserved I/O addresses (`LCDCIO`, `DMAIO`, `HDMA5IO`, ...) are constants declared
  outside `ram.go`; they are parameters of the model (`IOPorts`).
* The sound unit, the clock register file, the palette-index helpers of the graphics
  unit and the accumulator are collaborators declared outside `ram.go`; they are
  parameters of the model (`Env`, and the `regA` field of `CPU`).
* `SetMemory8` calls itself from the two DMA loops, so the model takes a nesting
  budget (`fuel`) and reports `Outcome.outOfFuel` when the budget is exhausted.
-/

namespace Emulator

/-- The reserved I/O addresses compared against by `FetchMemory8` and `SetMemory8`.
They are named constants declared outside `ram.go`. -/
structure IOPorts where
  LCDCIO : Nat
  LCDSTATIO : Nat
  DMAIO : Nat
  BGPIO : Nat
  OBP0IO : Nat
  OBP1IO : Nat
  VBKIO : Nat
  HDMA1IO : Nat
  HDMA2IO : Nat
  HDMA3IO : Nat
  HDMA4IO : Nat
  HDMA5IO : Nat
  BCPSIO : Nat
  BCPDIO : Nat
  OCPSIO : Nat
  OCPDIO : Nat
  SVBKIO : Nat

/-- Every reserved address of the port map, in declaration order. -/
def IOPorts.all (io : IOPorts) : List Nat :=
  [ io.LCDCIO, io.LCDSTATIO, io.DMAIO, io.BGPIO, io.OBP0IO, io.OBP1IO, io.VBKIO,
    io.HDMA1IO, io.HDMA2IO, io.HDMA3IO, io.HDMA4IO, io.HDMA5IO,
    io.BCPSIO, io.BCPDIO, io.OCPSIO, io.OCPDIO, io.SVBKIO ]

/-- A port map is valid when the seventeen reserved addresses are pairwise distinct
16-bit addresses of the high I/O page above the sound windows, `[0xff40, 0xffff]`. -/
def IOPorts.valid (io : IOPorts) : Prop :=
  io.all.Nodup ∧ ∀ p ∈ io.all, 0xff40 ≤ p ∧ p ≤ 0xffff

instance (io : IOPorts) : Decidable io.valid := by
  unfold IOPorts.valid
  infer_instance

/-- The port map of the handheld console the emulator targets. -/
def consolePorts : IOPorts where
  LCDCIO := 0xff40
  LCDSTATIO := 0xff41
  DMAIO := 0xff46
  BGPIO := 0xff47
  OBP0IO := 0xff48
  OBP1IO := 0xff49
  VBKIO := 0xff4f
  HDMA1IO := 0xff51
  HDMA2IO := 0xff52
  HDMA3IO := 0xff53
  HDMA4IO := 0xff54
  HDMA5IO := 0xff55
  BCPSIO := 0xff68
  BCPDIO := 0xff69
  OCPSIO := 0xff6a
  OCPDIO := 0xff6b
  SVBKIO := 0xff70

/-- The fields of the graphics unit that `ram.go` reads and writes. -/
structure GPU where
  VRAMBank : Nat → Nat → Nat
  VRAMBankPtr : Nat
  LCDC : Nat
  LCDSTAT : Nat
  DMGPallte : Nat → Nat
  CGBPallte : Nat → Nat
  BGPallete : Nat → Nat
  SPRPallete : Nat → Nat

/-- The clock unit: the mapped-register selector and the register file, which is reached
only through the unit's `Read` and `Write`. -/
structure RTC (ρ : Type) where
  Mapped : Nat
  regs : ρ

/-- The cartridge profile fields that steer `ram.go`. The header fields `Type` and
`RAMSize` occur only in the text of the fatal diagnostic and are left out. -/
structure Cartridge where
  MBC : String
  ROMSize : Nat
  IsCGB : Bool

/-- The part of the `CPU` struct that `ram.go` touches. `regA` is the accumulator returned
by `getAReg`; `σ` is the state of the sound unit, `ρ` the clock's register file. -/
structure CPU (σ ρ : Type) where
  RAM : Nat → Nat
  ROMBank : Nat → Nat → Nat
  ROMBankPtr : Nat
  RAMBank : Nat → Nat → Nat
  RAMBankPtr : Nat
  WRAMBank : Nat → Nat → Nat
  WRAMBankPtr : Nat
  bankMode : Nat
  cycleLine : Int
  regA : Nat
  Cartridge : Cartridge
  GPU : GPU
  Sound : σ
  RTC : RTC ρ

/-- The collaborators `ram.go` calls, together with the port map. The sound unit's `Read`,
`Write` and `WriteWaveform` act on the sound state, the clock unit's `Read` and `Write` on
its register file. The four palette helpers of the graphics unit are functions of the two
palette specification registers `CGBPallte`, which hold the palette index and its
auto-increment flag. -/
structure Env (σ ρ : Type) where
  io : IOPorts
  soundRead : σ → Nat → Nat
  soundWrite : σ → Nat → Nat → σ
  soundWriteWaveform : σ → Nat → Nat → σ
  rtcRead : ρ → Nat → Nat
  rtcWrite : ρ → Nat → Nat → ρ
  FetchBGPalleteIndex : (Nat → Nat) → Nat
  FetchSPRPalleteIndex : (Nat → Nat) → Nat
  FetchBGPalleteIncrement : (Nat → Nat) → Bool
  FetchSPRPalleteIncrement : (Nat → Nat) → Bool

/-- How a call of `SetMemory8` or `switchROMBank` ends: it returns with a new state, it
panics (the state at the moment of the panic is recorded), or the nesting budget of the
model is exhausted. -/
inductive Outcome (σ ρ : Type) where
  | done (cpu : CPU σ ρ)
  | fatal (cpu : CPU σ ρ)
  | outOfFuel

/-- Sequencing of two steps: the second runs only when the first returned. -/
def Outcome.andThen {σ ρ : Type} (o : Outcome σ ρ) (k : CPU σ ρ → Outcome σ ρ) :
    Outcome σ ρ :=
  match o with
  | .done cpu => k cpu
  | .fatal cpu => .fatal cpu
  | .outOfFuel => .outOfFuel

/-- Point update of a total map. -/
def setAt (f : Nat → Nat) (i v : Nat) : Nat → Nat :=
  fun j => if j = i then v else f j

/-- Point update of one bank of a banked store. -/
def setBank (f : Nat → Nat → Nat) (b i v : Nat) : Nat → Nat → Nat :=
  fun c j => if c = b ∧ j = i then v else f c j

section Model

variable {σ ρ : Type}

/-- `FetchMemory8` (ram.go lines 6-45). -/
def FetchMemory8 (env : Env σ ρ) (cpu : CPU σ ρ) (addr : Nat) : Nat :=
  if 0x4000 ≤ addr ∧ addr < 0x8000 then
    cpu.ROMBank cpu.ROMBankPtr (addr - 0x4000)
  else if 0x8000 ≤ addr ∧ addr < 0xa000 then
    cpu.GPU.VRAMBank cpu.GPU.VRAMBankPtr (addr - 0x8000)
  else if 0xa000 ≤ addr ∧ addr < 0xc000 then
    if cpu.RTC.Mapped ≠ 0 then
      env.rtcRead cpu.RTC.regs (cpu.RTC.Mapped % 256)
    else
      cpu.RAMBank cpu.RAMBankPtr (addr - 0xa000)
  else if cpu.WRAMBankPtr > 1 ∧ 0xd000 ≤ addr ∧ addr < 0xe000 then
    cpu.WRAMBank cpu.WRAMBankPtr (addr - 0xd000)
  else if (0xff10 ≤ addr ∧ addr ≤ 0xff26) ∨ (0xff30 ≤ addr ∧ addr ≤ 0xff3f) then
    env.soundRead cpu.Sound addr
  else if addr = env.io.LCDCIO then
    cpu.GPU.LCDC
  else if addr = env.io.LCDSTATIO then
    cpu.GPU.LCDSTAT
  else if addr = env.io.BCPDIO then
    cpu.GPU.BGPallete (env.FetchBGPalleteIndex cpu.GPU.CGBPallte)
  else if addr = env.io.OCPDIO then
    cpu.GPU.SPRPallete (env.FetchSPRPalleteIndex cpu.GPU.CGBPallte)
  else
    cpu.RAM addr

/-- `switchROMBank` (ram.go lines 227-252). -/
def switchROMBank (cpu : CPU σ ρ) (newROMBankPtr : Nat) : Outcome σ ρ :=
  let switchFlag : Option Bool :=
    match cpu.Cartridge.ROMSize with
    | 0 => some false
    | 1 => some (decide (newROMBankPtr < 4))
    | 2 => some (decide (newROMBankPtr < 8))
    | 3 => some (decide (newROMBankPtr < 16))
    | 4 => some (decide (newROMBankPtr < 32))
    | 5 => some (decide (newROMBankPtr < 64))
    | 6 => some (decide (newROMBankPtr < 128))
    | _ => none
  match switchFlag with
  | none => .fatal cpu
  | some true => .done { cpu with ROMBankPtr := newROMBankPtr }
  | some false => .done cpu

/-- The controller-command half of `SetMemory8`, taken when `addr <= 0x7fff`
(ram.go lines 50-105). -/
def controllerCommand (cpu : CPU σ ρ) (addr value : Nat) : Outcome σ ρ :=
  if 0x2000 ≤ addr ∧ addr ≤ 0x3fff then
    if cpu.Cartridge.MBC = "MBC1" then
      let value := if value = 0 then 1 else value
      let upper2 := cpu.ROMBankPtr >>> 5
      let lower5 := value
      let newROMBankPtr := ((upper2 <<< 5) % 256) ||| lower5
      switchROMBank cpu newROMBankPtr
    else if cpu.Cartridge.MBC = "MBC3" then
      let newROMBankPtr := value &&& 0x7f
      let newROMBankPtr := if newROMBankPtr = 0 then 1 else newROMBankPtr
      switchROMBank cpu newROMBankPtr
    else .done cpu
  else if 0x4000 ≤ addr ∧ addr ≤ 0x5fff then
    if cpu.Cartridge.MBC = "MBC1" then
      if cpu.bankMode = 0 then
        let upper2 := value
        let lower5 := cpu.ROMBankPtr &&& 0x1f
        let newROMBankPtr := ((upper2 <<< 5) % 256) ||| lower5
        switchROMBank cpu newROMBankPtr
      else if cpu.bankMode = 1 then
        .done { cpu with RAMBankPtr := value }
      else .done cpu
    else if cpu.Cartridge.MBC = "MBC3" then
      if value ≤ 0x07 then
        .done { cpu with RTC := { cpu.RTC with Mapped := 0 }, RAMBankPtr := value }
      else if 0x08 ≤ value ∧ value ≤ 0x0c then
        .done { cpu with RTC := { cpu.RTC with Mapped := value } }
      else .done cpu
    else .done cpu
  else if 0x6000 ≤ addr ∧ addr ≤ 0x7fff then
    if cpu.Cartridge.MBC = "MBC1" then
      if value = 1 ∨ value = 0 then .done { cpu with bankMode := value } else .done cpu
    else .done cpu
  else .done cpu

/-- The raw store of `SetMemory8` for `addr > 0x7fff` (ram.go lines 108-123). -/
def storeRegion (env : Env σ ρ) (cpu : CPU σ ρ) (addr value : Nat) : CPU σ ρ :=
  if 0x8000 ≤ addr ∧ addr < 0xa000 then
    { cpu with GPU := { cpu.GPU with
        VRAMBank := setBank cpu.GPU.VRAMBank cpu.GPU.VRAMBankPtr (addr - 0x8000) value } }
  else if 0xa000 ≤ addr ∧ addr < 0xc000 then
    if cpu.RTC.Mapped = 0 then
      { cpu with RAMBank := setBank cpu.RAMBank cpu.RAMBankPtr (addr - 0xa000) value }
    else
      { cpu with RTC := { cpu.RTC with
          regs := env.rtcWrite cpu.RTC.regs (cpu.RTC.Mapped % 256) value } }
  else if cpu.WRAMBankPtr > 1 ∧ 0xd000 ≤ addr ∧ addr < 0xe000 then
    { cpu with WRAMBank := setBank cpu.WRAMBank cpu.WRAMBankPtr (addr - 0xd000) value }
  else
    { cpu with RAM := setAt cpu.RAM addr value }

/-- The byte loop shared by both DMA engines (ram.go lines 128-130, 180-183, 186-189):
for `i` from `i` upwards, `count` times, write at `dst + i` what is read at `src + i`,
both sums in `uint16`. The write is the recursive call of `SetMemory8`. -/
def copyLoop (env : Env σ ρ) (write : CPU σ ρ → Nat → Nat → Outcome σ ρ) (src dst : Nat) :
    Nat → Nat → CPU σ ρ → Outcome σ ρ
  | 0, _, cpu => .done cpu
  | count + 1, i, cpu =>
    (write cpu ((dst + i) % 65536) (FetchMemory8 env cpu ((src + i) % 65536))).andThen
      fun cpu1 => copyLoop env write src dst count (i + 1) cpu1

/-- The byte loop with every write reduced to its raw store: what `copyLoop` computes when
no destination address has a dispatcher side effect. -/
def copyPure (env : Env σ ρ) (src dst : Nat) : Nat → Nat → CPU σ ρ → CPU σ ρ
  | 0, _, cpu => cpu
  | count + 1, i, cpu =>
    copyPure env src dst count (i + 1)
      (storeRegion env cpu ((dst + i) % 65536) (FetchMemory8 env cpu ((src + i) % 65536)))

/-- The sound, LCD and monochrome-palette side effects (ram.go lines 134-155). -/
def registerEffects (env : Env σ ρ) (cpu : CPU σ ρ) (addr value : Nat) : CPU σ ρ :=
  let cpu := if 0xff10 ≤ addr ∧ addr ≤ 0xff26 then
      { cpu with Sound := env.soundWrite cpu.Sound addr value } else cpu
  let cpu := if 0xff30 ≤ addr ∧ addr ≤ 0xff3f then
      { cpu with Sound := env.soundWriteWaveform cpu.Sound addr value } else cpu
  let cpu := if addr = env.io.LCDCIO then
      { cpu with GPU := { cpu.GPU with LCDC := value } } else cpu
  let cpu := if addr = env.io.LCDSTATIO then
      { cpu with GPU := { cpu.GPU with LCDSTAT := value } } else cpu
  if addr = env.io.BGPIO then
    { cpu with GPU := { cpu.GPU with DMGPallte := setAt cpu.GPU.DMGPallte 0 value } }
  else if addr = env.io.OBP0IO then
    { cpu with GPU := { cpu.GPU with DMGPallte := setAt cpu.GPU.DMGPallte 1 value } }
  else if addr = env.io.OBP1IO then
    { cpu with GPU := { cpu.GPU with DMGPallte := setAt cpu.GPU.DMGPallte 2 value } }
  else cpu

/-- The colour-palette and working-RAM bank side effects (ram.go lines 194-221). -/
def colourEffects (env : Env σ ρ) (cpu : CPU σ ρ) (addr value : Nat) : CPU σ ρ :=
  let cpu :=
    if addr = env.io.BCPSIO then
      { cpu with GPU := { cpu.GPU with CGBPallte := setAt cpu.GPU.CGBPallte 0 value } }
    else if addr = env.io.OCPSIO then
      { cpu with GPU := { cpu.GPU with CGBPallte := setAt cpu.GPU.CGBPallte 1 value } }
    else if addr = env.io.BCPDIO then
      let index := env.FetchBGPalleteIndex cpu.GPU.CGBPallte
      let gpu := { cpu.GPU with BGPallete := setAt cpu.GPU.BGPallete index value }
      let gpu := if env.FetchBGPalleteIncrement gpu.CGBPallte then
          { gpu with CGBPallte := setAt gpu.CGBPallte 0 ((gpu.CGBPallte 0 + 1) % 256) }
        else gpu
      { cpu with GPU := gpu }
    else if addr = env.io.OCPDIO then
      let index := env.FetchSPRPalleteIndex cpu.GPU.CGBPallte
      let gpu := { cpu.GPU with SPRPallete := setAt cpu.GPU.SPRPallete index value }
      let gpu := if env.FetchSPRPalleteIncrement gpu.CGBPallte then
          { gpu with CGBPallte := setAt gpu.CGBPallte 1 ((gpu.CGBPallte 1 + 1) % 256) }
        else gpu
      { cpu with GPU := gpu }
    else cpu
  if addr = env.io.SVBKIO then
    let newWRAMBankPtr := value &&& 0x07
    let newWRAMBankPtr := if newWRAMBankPtr = 0 then 1 else newWRAMBankPtr
    { cpu with WRAMBankPtr := newWRAMBankPtr }
  else cpu

/-- Source address of a video DMA (ram.go lines 166-168). -/
def hdmaFrom (env : Env σ ρ) (cpu : CPU σ ρ) : Nat :=
  let fromUpper := FetchMemory8 env cpu env.io.HDMA1IO
  let fromLower := FetchMemory8 env cpu env.io.HDMA2IO &&& 0xf0
  ((fromUpper <<< 8) % 65536) ||| fromLower

/-- Destination address of a video DMA (ram.go lines 169-171). -/
def hdmaTo (env : Env σ ρ) (cpu : CPU σ ρ) : Nat :=
  let toUpper := (FetchMemory8 env cpu env.io.HDMA3IO ||| (1 <<< 7)) &&& 0x9f
  let toLower := FetchMemory8 env cpu env.io.HDMA4IO &&& 0xf0
  ((toUpper <<< 8) % 65536) ||| toLower

/-- The video DMA transfer (ram.go lines 165-192); `write` is the recursive call of
`SetMemory8`. -/
def hdmaTransfer (env : Env σ ρ) (write : CPU σ ρ → Nat → Nat → Outcome σ ρ)
    (cpu : CPU σ ρ) : Outcome σ ρ :=
  let src := hdmaFrom env cpu
  let dst := hdmaTo env cpu
  let HDMA5 := FetchMemory8 env cpu env.io.HDMA5IO
  let length := ((HDMA5 &&& 0x7f) + 1) * 16
  let mode := HDMA5 >>> 7
  if mode = 0 then
    copyLoop env write src dst length 0 cpu
  else if mode = 1 then
    (copyLoop env write src dst length 0 cpu).andThen
      fun cpu1 => .done { cpu1 with RAM := setAt cpu1.RAM HDMA5 0xff }
  else .done cpu

/-- `SetMemory8` (ram.go lines 48-224). The first argument bounds the nesting depth of
the calls `SetMemory8` makes to itself from the DMA loops. -/
def SetMemory8 (env : Env σ ρ) : Nat → CPU σ ρ → Nat → Nat → Outcome σ ρ
  | 0, _, _, _ => .outOfFuel
  | fuel + 1, cpu, addr, value =>
    if addr ≤ 0x7fff then
      controllerCommand cpu addr value
    else
      let cpu := storeRegion env cpu addr value
      (if addr = env.io.DMAIO then
          let start := (cpu.regA <<< 8) % 65536
          (copyLoop env (SetMemory8 env fuel) start 0xfe00 160 0 cpu).andThen
            fun cpu1 => .done { cpu1 with cycleLine := cpu1.cycleLine + 150 }
        else .done cpu).andThen fun cpu =>
      let cpu := registerEffects env cpu addr value
      if cpu.Cartridge.IsCGB then
        let cpu := if addr = env.io.VBKIO then
            { cpu with GPU := { cpu.GPU with VRAMBankPtr := value &&& 0x01 } } else cpu
        (if addr = env.io.HDMA5IO then
            hdmaTransfer env (SetMemory8 env fuel) cpu
          else .done cpu).andThen fun cpu =>
        .done (colourEffects env cpu addr value)
      else .done cpu

end Model

/-! ## Sample collaborators and states used to instantiate the theorems -/

/-- A sample environment on the console port map: the sound unit and the clock register
file are plain register maps, and the palette index is the low six bits of the palette
specification register with the increment flag in its top bit. -/
def sampleEnv : Env (Nat → Nat) (Nat → Nat) where
  io := consolePorts
  soundRead := fun snd a => snd a
  soundWrite := fun snd a v => setAt snd a v
  soundWriteWaveform := fun snd a v => setAt snd a v
  rtcRead := fun regs sel => regs sel
  rtcWrite := fun regs sel v => setAt regs sel v
  FetchBGPalleteIndex := fun spec => spec 0 &&& 0x3f
  FetchSPRPalleteIndex := fun spec => spec 1 &&& 0x3f
  FetchBGPalleteIncrement := fun spec => spec 0 >>> 7 == 1
  FetchSPRPalleteIncrement := fun spec => spec 1 >>> 7 == 1

/-- A sample state: every store holds a recognisable byte pattern, ROM bank 1 is active,
nothing is mapped. The controller kind, the size class and the colour flag are arguments. -/
def sampleCPU (mbc : String) (romSize : Nat) (cgb : Bool) : CPU (Nat → Nat) (Nat → Nat) where
  RAM := fun a => (a + 1) % 256
  ROMBank := fun b i => (b + i) % 256
  ROMBankPtr := 1
  RAMBank := fun b i => (2 * b + i + 3) % 256
  RAMBankPtr := 0
  WRAMBank := fun b i => (3 * b + i + 5) % 256
  WRAMBankPtr := 1
  bankMode := 0
  cycleLine := 0
  regA := 0
  Cartridge := { MBC := mbc, ROMSize := romSize, IsCGB := cgb }
  GPU := { VRAMBank := fun b i => (5 * b + i + 7) % 256, VRAMBankPtr := 0, LCDC := 0,
           LCDSTAT := 0, DMGPallte := fun _ => 0, CGBPallte := fun _ => 0,
           BGPallete := fun _ => 0, SPRPallete := fun _ => 0 }
  Sound := fun _ => 0
  RTC := { Mapped := 0, regs := fun sel => 0xa0 + sel }

/-- The condition under which a command write asks for a change of the ROM pointer:
controller MBC1 or MBC3 with `addr` in `[0x2000,0x4000)`, or MBC1 in bank mode 0 with
`addr` in `[0x4000,0x6000)`. -/
def requestsROMSwitch {σ ρ : Type} (cpu : CPU σ ρ) (addr : Nat) : Prop :=
  ((cpu.Cartridge.MBC = "MBC1" ∨ cpu.Cartridge.MBC = "MBC3") ∧ 0x2000 ≤ addr ∧ addr < 0x4000) ∨
  (cpu.Cartridge.MBC = "MBC1" ∧ cpu.bankMode = 0 ∧ 0x4000 ≤ addr ∧ addr < 0x6000)

/-- The state in which a write of `v` to the object-memory DMA trigger returns: `v` stored
in the trigger register, the 160 cells from `0xfe00` filled from the source base
`regA * 256`, and the cycle counter advanced by 150. -/
def dmaResult {σ ρ : Type} (env : Env σ ρ) (cpu : CPU σ ρ) (v : Nat) : CPU σ ρ :=
  { cpu with
    RAM := fun a =>
      if 0xfe00 ≤ a ∧ a < 0xfea0 then
        FetchMemory8 env { cpu with RAM := setAt cpu.RAM env.io.DMAIO v }
          ((cpu.regA * 256 + (a - 0xfe00)) % 65536)
      else setAt cpu.RAM env.io.DMAIO v a
    cycleLine := cpu.cycleLine + 150 }

/-- Number of bytes a video DMA with control byte `c` transfers (ram.go line 174). -/
def hdmaLength (c : Nat) : Nat := ((c &&& 0x7f) + 1) * 16

/-- The state in which a write of the control byte `c` to the video-DMA trigger returns
when the destination range lies inside the video-RAM window: `c` stored in the trigger
register, the destination range of the active video-RAM bank filled from the source, and,
in mode 1, flat-RAM cell `c` set to `0xff`. -/
def hdmaResult {σ ρ : Type} (env : Env σ ρ) (cpu : CPU σ ρ) (c : Nat) : CPU σ ρ :=
  { cpu with
    RAM :=
      if c >>> 7 = 1 then setAt (setAt cpu.RAM env.io.HDMA5IO c) c 0xff
      else setAt cpu.RAM env.io.HDMA5IO c
    GPU := { cpu.GPU with
      VRAMBank := fun b o =>
        if b = cpu.GPU.VRAMBankPtr ∧
            hdmaTo env cpu ≤ 0x8000 + o ∧ 0x8000 + o < hdmaTo env cpu + hdmaLength c then
          FetchMemory8 env { cpu with RAM := setAt cpu.RAM env.io.HDMA5IO c }
            ((hdmaFrom env cpu + (0x8000 + o - hdmaTo env cpu)) % 65536)
        else cpu.GPU.VRAMBank b o } }

/-- The sample colour-mode state with the video-DMA registers set up by plain stores:
`HDMA1..HDMA4` hold `h1..h4`. -/
def sampleHDMA (h1 h2 h3 h4 : Nat) : CPU (Nat → Nat) (Nat → Nat) :=
  { sampleCPU "MBC1" 5 true with
    RAM := setAt (setAt (setAt (setAt (sampleCPU "MBC1" 5 true).RAM 0xff51 h1) 0xff52 h2)
      0xff53 h3) 0xff54 h4 }

/-- The video DMA transfer with every byte write reduced to its raw store: what
`hdmaTransfer` computes when no destination address has a dispatcher side effect. -/
def hdmaPure {σ ρ : Type} (env : Env σ ρ) (cpu : CPU σ ρ) : CPU σ ρ :=
  let src := hdmaFrom env cpu
  let dst := hdmaTo env cpu
  let HDMA5 := FetchMemory8 env cpu env.io.HDMA5IO
  let length := ((HDMA5 &&& 0x7f) + 1) * 16
  let mode := HDMA5 >>> 7
  if mode = 0 then
    copyPure env src dst length 0 cpu
  else if mode = 1 then
    { copyPure env src dst length 0 cpu with
      RAM := setAt (copyPure env src dst length 0 cpu).RAM HDMA5 0xff }
  else cpu

/-- The state in which a write to an address above `0x7fff` returns: the data half of
`SetMemory8` (ram.go lines 107-222) with both DMA loops reduced to raw stores. -/
def writePure {σ ρ : Type} (env : Env σ ρ) (cpu : CPU σ ρ) (addr value : Nat) : CPU σ ρ :=
  let cpu := storeRegion env cpu addr value
  let cpu :=
    if addr = env.io.DMAIO then
      { copyPure env ((cpu.regA <<< 8) % 65536) 0xfe00 160 0 cpu with
        cycleLine := (copyPure env ((cpu.regA <<< 8) % 65536) 0xfe00 160 0 cpu).cycleLine + 150 }
    else cpu
  let cpu := registerEffects env cpu addr value
  if cpu.Cartridge.IsCGB then
    let cpu := if addr = env.io.VBKIO then
        { cpu with GPU := { cpu.GPU with VRAMBankPtr := value &&& 0x01 } } else cpu
    let cpu := if addr = env.io.HDMA5IO then hdmaPure env cpu else cpu
    colourEffects env cpu addr value
  else cpu

/-- A write function that drops every write whose address lies outside `[lo, hi)`. -/
def guardWrite {σ ρ : Type} (lo hi : Nat) (write : CPU σ ρ → Nat → Nat → Outcome σ ρ) :
    CPU σ ρ → Nat → Nat → Outcome σ ρ :=
  fun cpu addr value => if lo ≤ addr ∧ addr < hi then write cpu addr value else .done cpu

/-- A finite sequence of writes `(addr, value)`, issued one after the other; a write that
does not return ends the sequence. -/
def runWrites {σ ρ : Type} (env : Env σ ρ) (fuel : Nat) :
    CPU σ ρ → List (Nat × Nat) → Outcome σ ρ
  | cpu, [] => .done cpu
  | cpu, w :: ws => (SetMemory8 env fuel cpu w.1 w.2).andThen fun cpu1 => runWrites env fuel cpu1 ws

/-- The data regions of a plain read-after-write: the video-RAM window, the external-RAM window while the
clock is unmapped, and `[0xc000, 0xff00)`. -/
def dataRegion {σ ρ : Type} (cpu : CPU σ ρ) (addr : Nat) : Prop :=
  (0x8000 ≤ addr ∧ addr < 0xa000) ∨
  (0xa000 ≤ addr ∧ addr < 0xc000 ∧ cpu.RTC.Mapped = 0) ∨
  (0xc000 ≤ addr ∧ addr < 0xff00)

section Lemmas

variable {σ ρ : Type}

/-! ## Bank-switch validation -/

theorem switchROMBank_fatal (cpu : CPU σ ρ) (p : Nat) (h : 6 < cpu.Cartridge.ROMSize) :
    switchROMBank cpu p = .fatal cpu := by
  unfold switchROMBank
  split <;> first | omega | rfl

theorem switchROMBank_class (cpu : CPU σ ρ) (p : Nat)
    (h1 : 1 ≤ cpu.Cartridge.ROMSize) (h6 : cpu.Cartridge.ROMSize ≤ 6) :
    switchROMBank cpu p =
      .done (if p < 2 ^ (cpu.Cartridge.ROMSize + 1) then { cpu with ROMBankPtr := p }
             else cpu) := by
  have hc : cpu.Cartridge.ROMSize = 1 ∨ cpu.Cartridge.ROMSize = 2 ∨ cpu.Cartridge.ROMSize = 3 ∨
      cpu.Cartridge.ROMSize = 4 ∨ cpu.Cartridge.ROMSize = 5 ∨ cpu.Cartridge.ROMSize = 6 := by
    omega
  unfold switchROMBank
  rcases hc with hc | hc | hc | hc | hc | hc <;> simp only [hc] <;>
    norm_num <;> split_ifs with hp <;> simp [hp]

theorem switchROMBank_class_zero (cpu : CPU σ ρ) (p : Nat) (h : cpu.Cartridge.ROMSize = 0) :
    switchROMBank cpu p = .done cpu := by
  unfold switchROMBank
  simp [h]

theorem SetMemory8_command (env : Env σ ρ) (fuel : Nat) (cpu : CPU σ ρ) (addr value : Nat)
    (h : addr ≤ 0x7fff) :
    SetMemory8 env (fuel + 1) cpu addr value = controllerCommand cpu addr value := by
  simp [SetMemory8, h]

theorem and_0x7f (v : Nat) : v &&& 0x7f = v % 128 :=
  Nat.and_pow_two_sub_one_eq_mod v 7

theorem and_0x1f (v : Nat) : v &&& 0x1f = v % 32 :=
  Nat.and_pow_two_sub_one_eq_mod v 5

theorem shiftRight_5 (v : Nat) : v >>> 5 = v / 32 :=
  Nat.shiftRight_eq_div_pow v 5

theorem shiftLeft_5 (v : Nat) : v <<< 5 = v * 32 :=
  Nat.shiftLeft_eq v 5

/-! ## ROM bank selection and reads of the switchable ROM window -/

/-- C1: for an MBC1 or MBC3 cartridge of size class `c` in 1..6 and a bank number `b` with
`1 <= b < 2^(c+1)` (for MBC1 also `b <= 31` and the current ROM pointer below 32), a
write of `b` to any address `a` in `[0x2000,0x4000)` returns with the ROM pointer set to
`b` and nothing else changed, and a read of any `addr` in `[0x4000,0x8000)` afterwards
returns the byte at offset `addr - 0x4000` of ROM bank `b`. -/
theorem read_after_rom_bank_select (env : Env σ ρ) (fuel : Nat) (cpu : CPU σ ρ)
    (a b addr c : Nat)
    (hmbc : cpu.Cartridge.MBC = "MBC1" ∨ cpu.Cartridge.MBC = "MBC3")
    (hc : cpu.Cartridge.ROMSize = c) (hc1 : 1 ≤ c) (hc6 : c ≤ 6)
    (hb1 : 1 ≤ b) (hb : b < 2 ^ (c + 1))
    (hmbc1 : cpu.Cartridge.MBC = "MBC1" → b ≤ 31 ∧ cpu.ROMBankPtr < 32)
    (ha : 0x2000 ≤ a ∧ a < 0x4000) (haddr : 0x4000 ≤ addr ∧ addr < 0x8000) :
    SetMemory8 env (fuel + 1) cpu a b = .done { cpu with ROMBankPtr := b } ∧
    FetchMemory8 env { cpu with ROMBankPtr := b } addr = cpu.ROMBank b (addr - 0x4000) := by
  have hlow : a ≤ 0x7fff := by omega
  have hb0 : b ≠ 0 := by omega
  have ha2 : a ≤ 0x3fff := by omega
  have hcand : controllerCommand cpu a b = switchROMBank cpu b := by
    unfold controllerCommand
    rcases hmbc with h | h
    · obtain ⟨-, hptr⟩ := hmbc1 h
      have h0 : cpu.ROMBankPtr >>> 5 = 0 := by
        rw [shiftRight_5]; exact Nat.div_eq_of_lt hptr
      simp [h, ha.1, ha2, h0, hb0]
    · have hb128 : b < 128 := by
        have : (2 : Nat) ^ (c + 1) ≤ 2 ^ 7 := Nat.pow_le_pow_right (by norm_num) (by omega)
        omega
      have hand : b &&& 0x7f = b := by rw [and_0x7f]; exact Nat.mod_eq_of_lt hb128
      have hne : ¬ ("MBC3" = "MBC1") := by decide
      simp only [h, ha.1, ha2, hand, hb0, hne, and_self, if_true, if_false]
  constructor
  · rw [SetMemory8_command env fuel cpu a b hlow, hcand,
      switchROMBank_class cpu b (by omega) (by omega), hc, if_pos hb]
  · simp [FetchMemory8, haddr.1, haddr.2]

/-- Instance of C1: MBC3, size class 5, bank 33 selected through address `0x2100`, read
at `0x4010`. -/
theorem read_after_rom_bank_select_witness :
    SetMemory8 sampleEnv 1 (sampleCPU "MBC3" 5 false) 0x2100 33
        = .done { sampleCPU "MBC3" 5 false with ROMBankPtr := 33 } ∧
    FetchMemory8 sampleEnv { sampleCPU "MBC3" 5 false with ROMBankPtr := 33 } 0x4010
        = (sampleCPU "MBC3" 5 false).ROMBank 33 0x10 :=
  read_after_rom_bank_select sampleEnv 0 (sampleCPU "MBC3" 5 false) 0x2100 33 0x4010 5
    (Or.inr rfl) rfl (by decide) (by decide) (by decide) (by decide)
    (fun h => absurd h (by decide)) (by decide) (by decide)

/-- C2: bank-switch validation. With size class `c` in 1..6, `switchROMBank p` returns
with the ROM pointer set to `p` when `p < 2^(c+1)` and with the state as it was otherwise;
with size class 0 the state is returned as it was for every `p`; with size class 1 the
candidate 5 leaves the state as it was. In every case no field other than the ROM pointer
differs from the state before the call. -/
theorem switchROMBank_validation (cpu : CPU σ ρ) (p : Nat) :
    (1 ≤ cpu.Cartridge.ROMSize ∧ cpu.Cartridge.ROMSize ≤ 6 →
      switchROMBank cpu p =
        .done (if p < 2 ^ (cpu.Cartridge.ROMSize + 1) then { cpu with ROMBankPtr := p }
               else cpu)) ∧
    (cpu.Cartridge.ROMSize = 0 → switchROMBank cpu p = .done cpu) ∧
    (cpu.Cartridge.ROMSize = 1 → switchROMBank cpu 5 = .done cpu) := by
  refine ⟨fun h => switchROMBank_class cpu p h.1 h.2,
    fun h => switchROMBank_class_zero cpu p h, fun h => ?_⟩
  rw [switchROMBank_class cpu 5 (by omega) (by omega), h]
  simp

/-- Instance of C2: size class 1 accepts candidate 3 and ignores candidate 5. -/
theorem switchROMBank_validation_witness :
    switchROMBank (sampleCPU "MBC1" 1 false) 3
        = .done { sampleCPU "MBC1" 1 false with ROMBankPtr := 3 } ∧
    switchROMBank (sampleCPU "MBC1" 1 false) 5 = .done (sampleCPU "MBC1" 1 false) :=
  ⟨(switchROMBank_validation (sampleCPU "MBC1" 1 false) 3).1 ⟨by decide, by decide⟩,
   (switchROMBank_validation (sampleCPU "MBC1" 1 false) 5).2.2 rfl⟩

/-! ## The fatal configuration error -/

theorem controllerCommand_mbc1_select (cpu : CPU σ ρ) (addr value : Nat)
    (hm : cpu.Cartridge.MBC = "MBC1") (h1 : 0x2000 ≤ addr) (h2 : addr < 0x4000) :
    controllerCommand cpu addr value =
      switchROMBank cpu
        ((((cpu.ROMBankPtr >>> 5) <<< 5) % 256) ||| (if value = 0 then 1 else value)) := by
  have h3 : addr ≤ 0x3fff := by omega
  unfold controllerCommand
  simp only [h1, h3, hm, and_self, if_true]

theorem controllerCommand_mbc3_select (cpu : CPU σ ρ) (addr value : Nat)
    (hm : cpu.Cartridge.MBC = "MBC3") (h1 : 0x2000 ≤ addr) (h2 : addr < 0x4000) :
    controllerCommand cpu addr value =
      switchROMBank cpu (if value &&& 0x7f = 0 then 1 else value &&& 0x7f) := by
  have hne : ¬ ("MBC3" = "MBC1") := by decide
  have h3 : addr ≤ 0x3fff := by omega
  unfold controllerCommand
  simp only [h1, h3, hm, hne, and_self, if_true, if_false]

theorem controllerCommand_mbc1_upper (cpu : CPU σ ρ) (addr value : Nat)
    (hm : cpu.Cartridge.MBC = "MBC1") (hb : cpu.bankMode = 0)
    (h1 : 0x4000 ≤ addr) (h2 : addr < 0x6000) :
    controllerCommand cpu addr value =
      switchROMBank cpu (((value <<< 5) % 256) ||| (cpu.ROMBankPtr &&& 0x1f)) := by
  have h3 : ¬ (0x2000 ≤ addr ∧ addr ≤ 0x3fff) := by omega
  have h4 : addr ≤ 0x5fff := by omega
  unfold controllerCommand
  simp only [h3, h1, h4, hm, hb, and_self, if_true, if_false]

theorem controllerCommand_mbc1_ram (cpu : CPU σ ρ) (addr value : Nat)
    (hm : cpu.Cartridge.MBC = "MBC1") (hb : cpu.bankMode = 1)
    (h1 : 0x4000 ≤ addr) (h2 : addr < 0x6000) :
    controllerCommand cpu addr value = .done { cpu with RAMBankPtr := value } := by
  have h3 : ¬ (0x2000 ≤ addr ∧ addr ≤ 0x3fff) := by omega
  have h4 : addr ≤ 0x5fff := by omega
  have h5 : ¬ ((1 : Nat) = 0) := by decide
  unfold controllerCommand
  simp only [h3, h1, h4, hm, hb, h5, and_self, if_true, if_false]

theorem controllerCommand_switch (cpu : CPU σ ρ) (addr value : Nat)
    (h : requestsROMSwitch cpu addr) :
    ∃ p, controllerCommand cpu addr value = switchROMBank cpu p := by
  rcases h with ⟨hm | hm, h1, h2⟩ | ⟨hm, hb, h1, h2⟩
  · exact ⟨_, controllerCommand_mbc1_select cpu addr value hm h1 h2⟩
  · exact ⟨_, controllerCommand_mbc3_select cpu addr value hm h1 h2⟩
  · exact ⟨_, controllerCommand_mbc1_upper cpu addr value hm hb h1 h2⟩

theorem controllerCommand_no_switch (cpu : CPU σ ρ) (addr value : Nat)
    (h : ¬ requestsROMSwitch cpu addr) :
    ∃ cpu1, controllerCommand cpu addr value = .done cpu1 ∧ cpu1.ROMBankPtr = cpu.ROMBankPtr := by
  unfold requestsROMSwitch at h
  unfold controllerCommand
  split_ifs <;> first
    | exact ⟨_, rfl, rfl⟩
    | (exfalso; apply h; simp_all; omega)

theorem switchROMBank_recognised (cpu : CPU σ ρ) (p : Nat) (h : cpu.Cartridge.ROMSize ≤ 6) :
    ∃ cpu1, switchROMBank cpu p = .done cpu1 := by
  by_cases h0 : cpu.Cartridge.ROMSize = 0
  · exact ⟨_, switchROMBank_class_zero cpu p h0⟩
  · exact ⟨_, switchROMBank_class cpu p (by omega) h⟩

/-- C3: a write with `addr <= 0x7fff` ends in the fatal error exactly when the ROM size
class is outside 0..6 and the write requests a ROM-pointer change; the state at the moment
of the fatal error is the state before the write, so the ROM pointer has not been changed;
in every other case the write returns; and with an unrecognised size class every write in
this range that returns leaves the ROM pointer as it was. -/
theorem write_fatal_iff (env : Env σ ρ) (fuel : Nat) (cpu : CPU σ ρ) (addr value : Nat)
    (h : addr ≤ 0x7fff) :
    ((∃ cpu1, SetMemory8 env (fuel + 1) cpu addr value = .fatal cpu1) ↔
      (6 < cpu.Cartridge.ROMSize ∧ requestsROMSwitch cpu addr)) ∧
    (∀ cpu1, SetMemory8 env (fuel + 1) cpu addr value = .fatal cpu1 → cpu1 = cpu) ∧
    (¬ (6 < cpu.Cartridge.ROMSize ∧ requestsROMSwitch cpu addr) →
      ∃ cpu1, SetMemory8 env (fuel + 1) cpu addr value = .done cpu1) ∧
    (6 < cpu.Cartridge.ROMSize → ∀ cpu1,
      SetMemory8 env (fuel + 1) cpu addr value = .done cpu1 →
        cpu1.ROMBankPtr = cpu.ROMBankPtr) := by
  rw [SetMemory8_command env fuel cpu addr value h]
  by_cases hreq : requestsROMSwitch cpu addr
  · obtain ⟨p, hp⟩ := controllerCommand_switch cpu addr value hreq
    rw [hp]
    by_cases hsz : 6 < cpu.Cartridge.ROMSize
    · rw [switchROMBank_fatal cpu p hsz]
      refine ⟨⟨fun _ => ⟨hsz, hreq⟩, fun _ => ⟨cpu, rfl⟩⟩, ?_, ?_, ?_⟩
      · intro cpu1 h1
        injection h1 with h1
        exact h1.symm
      · intro hn
        exact absurd ⟨hsz, hreq⟩ hn
      · intro _ cpu1 h1
        cases h1
    · obtain ⟨cpu2, h2⟩ := switchROMBank_recognised cpu p (by omega)
      rw [h2]
      refine ⟨⟨?_, fun hh => absurd hh.1 hsz⟩, ?_, fun _ => ⟨cpu2, rfl⟩, fun hh => absurd hh hsz⟩
      · rintro ⟨cpu1, h1⟩
        cases h1
      · intro cpu1 h1
        cases h1
  · obtain ⟨cpu2, h2, hptr⟩ := controllerCommand_no_switch cpu addr value hreq
    rw [h2]
    refine ⟨⟨?_, fun hh => absurd hh.2 hreq⟩, ?_, fun _ => ⟨cpu2, rfl⟩, ?_⟩
    · rintro ⟨cpu1, h1⟩
      cases h1
    · intro cpu1 h1
      cases h1
    · intro _ cpu1 h1
      injection h1 with h1
      rw [← h1]
      exact hptr

/-- Instance of C3: an MBC1 cartridge with the unrecognised size class 7 dies on a bank
select at `0x2000`, with the state as before the write. -/
theorem write_fatal_iff_witness :
    SetMemory8 sampleEnv 1 (sampleCPU "MBC1" 7 false) 0x2000 2
      = .fatal (sampleCPU "MBC1" 7 false) := by
  obtain ⟨cpu1, h1⟩ :=
    (write_fatal_iff sampleEnv 0 (sampleCPU "MBC1" 7 false) 0x2000 2 (by decide)).1.2
      ⟨by decide, Or.inl ⟨Or.inl rfl, by decide, by decide⟩⟩
  have h2 :=
    (write_fatal_iff sampleEnv 0 (sampleCPU "MBC1" 7 false) 0x2000 2 (by decide)).2.1 cpu1 h1
  rw [h1, h2]

/-! ## MBC3: the RAM bank / clock register select window -/

/-- C4: for an MBC3 cartridge and any `a` in `[0x4000,0x6000)`: a write of `v` in
`0x08..0x0c` returns with the clock selector set to `v`, and a read of any `addr` in
`[0xa000,0xc000)` afterwards is the clock unit's register at selector `v`; a write of `v`
in `0x00..0x07` returns with the clock unmapped and the external-RAM pointer set to `v`,
and such a read afterwards is the byte at offset `addr - 0xa000` of external-RAM bank `v`;
a write of `v > 0x0c` returns the state as it was. -/
theorem mbc3_ram_rtc_select (env : Env σ ρ) (fuel : Nat) (cpu : CPU σ ρ) (a v addr : Nat)
    (hm : cpu.Cartridge.MBC = "MBC3") (ha : 0x4000 ≤ a ∧ a < 0x6000)
    (haddr : 0xa000 ≤ addr ∧ addr < 0xc000) :
    (0x08 ≤ v ∧ v ≤ 0x0c →
      SetMemory8 env (fuel + 1) cpu a v
          = .done { cpu with RTC := { cpu.RTC with Mapped := v } } ∧
      FetchMemory8 env { cpu with RTC := { cpu.RTC with Mapped := v } } addr
          = env.rtcRead cpu.RTC.regs v) ∧
    (v ≤ 0x07 →
      SetMemory8 env (fuel + 1) cpu a v
          = .done { cpu with RTC := { cpu.RTC with Mapped := 0 }, RAMBankPtr := v } ∧
      FetchMemory8 env { cpu with RTC := { cpu.RTC with Mapped := 0 }, RAMBankPtr := v } addr
          = cpu.RAMBank v (addr - 0xa000)) ∧
    (0x0c < v → SetMemory8 env (fuel + 1) cpu a v = .done cpu) := by
  have hlow : a ≤ 0x7fff := by omega
  have hne : ¬ ("MBC3" = "MBC1") := by decide
  have h3 : ¬ (0x2000 ≤ a ∧ a ≤ 0x3fff) := by omega
  have h4 : a ≤ 0x5fff := by omega
  have h5 : ¬ (0x4000 ≤ addr ∧ addr < 0x8000) := by omega
  have h6 : ¬ (0x8000 ≤ addr ∧ addr < 0xa000) := by omega
  rw [SetMemory8_command env fuel cpu a v hlow]
  unfold controllerCommand
  simp only [h3, ha.1, h4, hm, hne, and_self, if_true, if_false]
  refine ⟨fun hv => ?_, fun hv => ?_, fun hv => ?_⟩
  · have hv7 : ¬ v ≤ 0x07 := by omega
    have hv0 : v ≠ 0 := by omega
    have hmod : v % 256 = v := Nat.mod_eq_of_lt (by omega)
    refine ⟨by simp only [hv7, hv.1, hv.2, and_self, if_true, if_false], ?_⟩
    unfold FetchMemory8
    simp only [h5, h6, haddr.1, haddr.2, and_self, if_true, if_false, ne_eq, hv0,
      not_false_eq_true, hmod]
  · refine ⟨by simp only [hv, if_true], ?_⟩
    unfold FetchMemory8
    simp only [h5, h6, haddr.1, haddr.2, and_self, if_true, if_false, ne_eq,
      not_true_eq_false]
  · have hv7 : ¬ v ≤ 0x07 := by omega
    have hvc : ¬ (0x08 ≤ v ∧ v ≤ 0x0c) := by omega
    simp only [hv7, hvc, if_false]

/-- Instance of C4: value 9 written to `0x4000`, then a read of `0xa123` returns the
clock register at selector 9 (`0xa9` in the sample register file), not external RAM. -/
theorem mbc3_ram_rtc_select_witness :
    SetMemory8 sampleEnv 1 (sampleCPU "MBC3" 5 false) 0x4000 9
        = .done { sampleCPU "MBC3" 5 false with
                    RTC := { (sampleCPU "MBC3" 5 false).RTC with Mapped := 9 } } ∧
    FetchMemory8 sampleEnv { sampleCPU "MBC3" 5 false with
        RTC := { (sampleCPU "MBC3" 5 false).RTC with Mapped := 9 } } 0xa123 = 0xa9 :=
  (mbc3_ram_rtc_select sampleEnv 0 (sampleCPU "MBC3" 5 false) 0x4000 9 0xa123 rfl
    (by decide) (by decide)).1 (by decide)

/-! ## Writes that have no dispatcher side effect -/

theorem valid_ports_high (io : IOPorts) (hv : io.valid) (addr : Nat) (h : addr < 0xff40) :
    addr ≠ io.LCDCIO ∧ addr ≠ io.LCDSTATIO ∧ addr ≠ io.DMAIO ∧ addr ≠ io.BGPIO ∧
    addr ≠ io.OBP0IO ∧ addr ≠ io.OBP1IO ∧ addr ≠ io.VBKIO ∧ addr ≠ io.HDMA1IO ∧
    addr ≠ io.HDMA2IO ∧ addr ≠ io.HDMA3IO ∧ addr ≠ io.HDMA4IO ∧ addr ≠ io.HDMA5IO ∧
    addr ≠ io.BCPSIO ∧ addr ≠ io.BCPDIO ∧ addr ≠ io.OCPSIO ∧ addr ≠ io.OCPDIO ∧
    addr ≠ io.SVBKIO := by
  have hb := hv.2
  simp only [IOPorts.all, List.mem_cons, List.mem_singleton, forall_eq_or_imp, forall_eq] at hb
  omega

theorem SetMemory8_plain (env : Env σ ρ) (hv : env.io.valid) (fuel : Nat) (cpu : CPU σ ρ)
    (addr value : Nat) (h1 : 0x7fff < addr) (h2 : addr < 0xff10) :
    SetMemory8 env (fuel + 1) cpu addr value = .done (storeRegion env cpu addr value) := by
  obtain ⟨p1, p2, p3, p4, p5, p6, p7, p8, p9, p10, p11, p12, p13, p14, p15, p16, p17⟩ :=
    valid_ports_high env.io hv addr (by omega)
  have hlow : ¬ addr ≤ 0x7fff := by omega
  have hs1 : ¬ (0xff10 ≤ addr ∧ addr ≤ 0xff26) := by omega
  have hs2 : ¬ (0xff30 ≤ addr ∧ addr ≤ 0xff3f) := by omega
  simp only [SetMemory8, hlow, if_false, p3, Outcome.andThen, registerEffects, hs1, hs2, p1, p2,
    p4, p5, p6, p7, p12, colourEffects, p13, p14, p15, p16, p17]
  split_ifs <;> rfl

theorem copyLoop_plain (env : Env σ ρ) (hv : env.io.valid) (fuel : Nat) (src dst : Nat) :
    ∀ (count i : Nat) (cpu : CPU σ ρ),
      (∀ j, i ≤ j → j < i + count →
        0x7fff < (dst + j) % 65536 ∧ (dst + j) % 65536 < 0xff10) →
      copyLoop env (SetMemory8 env (fuel + 1)) src dst count i cpu
        = .done (copyPure env src dst count i cpu)
  | 0, _, _, _ => rfl
  | count + 1, i, cpu, h => by
    have hi := h i (Nat.le_refl i) (by omega)
    rw [copyLoop, SetMemory8_plain env hv fuel cpu _ _ hi.1 hi.2]
    simp only [Outcome.andThen]
    rw [copyLoop_plain env hv fuel src dst count (i + 1) _
      (fun j h1 h2 => h j (by omega) (by omega))]
    rfl

theorem storeRegion_flat (env : Env σ ρ) (cpu : CPU σ ρ) (addr value : Nat)
    (h : 0xe000 ≤ addr) :
    storeRegion env cpu addr value = { cpu with RAM := setAt cpu.RAM addr value } := by
  have h1 : ¬ (0x8000 ≤ addr ∧ addr < 0xa000) := by omega
  have h2 : ¬ (0xa000 ≤ addr ∧ addr < 0xc000) := by omega
  have h3 : ¬ (cpu.WRAMBankPtr > 1 ∧ 0xd000 ≤ addr ∧ addr < 0xe000) := by omega
  simp only [storeRegion, h1, h2, h3, if_false]

theorem fetch_flat_update_ne (env : Env σ ρ) (cpu : CPU σ ρ) (ram : Nat → Nat) (x : Nat)
    (h : ram x = cpu.RAM x) :
    FetchMemory8 env { cpu with RAM := ram } x = FetchMemory8 env cpu x := by
  simp only [FetchMemory8, h]

/-- The flat-RAM image of a byte loop whose destination lies in the flat region at and
above `0xe000`, when no source byte is read after its cell has been overwritten. -/
theorem copyPure_flat (env : Env σ ρ) (src dst : Nat) (hd : 0xe000 ≤ dst) :
    ∀ (count i : Nat) (cpu : CPU σ ρ), dst + i + count ≤ 0x10000 →
      (∀ j k, i ≤ j → j < k → k < i + count → (src + k) % 65536 ≠ dst + j) →
      copyPure env src dst count i cpu =
        { cpu with RAM := fun a =>
            if dst + i ≤ a ∧ a < dst + i + count then
              FetchMemory8 env cpu ((src + (a - dst)) % 65536)
            else cpu.RAM a }
  | 0, i, cpu, _, _ => by
    have : ∀ a, ¬ (dst + i ≤ a ∧ a < dst + i + 0) := fun a => by omega
    simp only [copyPure, this, if_false]
  | count + 1, i, cpu, hb, hs => by
    have hm : (dst + i) % 65536 = dst + i := Nat.mod_eq_of_lt (by omega)
    rw [copyPure, hm, storeRegion_flat env cpu _ _ (by omega),
      copyPure_flat env src dst hd count (i + 1) _ (by omega)
        (fun j k h1 h2 h3 => hs j k (by omega) h2 (by omega))]
    congr 1
    funext a
    by_cases ha : dst + (i + 1) ≤ a ∧ a < dst + (i + 1) + count
    · have ha2 : dst + i ≤ a ∧ a < dst + i + (count + 1) := by omega
      rw [if_pos ha, if_pos ha2]
      apply fetch_flat_update_ne
      have hne := hs i (a - dst) (Nat.le_refl i) (by omega) (by omega)
      simp only [setAt, hne, if_false]
    · rw [if_neg ha]
      by_cases ha3 : a = dst + i
      · have ha2 : dst + i ≤ a ∧ a < dst + i + (count + 1) := by omega
        rw [if_pos ha2]
        simp only [setAt, ha3, if_true]
        congr 2
        omega
      · have ha2 : ¬ (dst + i ≤ a ∧ a < dst + i + (count + 1)) := by omega
        rw [if_neg ha2]
        simp only [setAt, ha3, if_false]

/-! ## Object-memory DMA -/

theorem ports_ne (io : IOPorts) (hv : io.valid) (i j : Fin 17) (hij : i ≠ j) :
    io.all.get i ≠ io.all.get j := by
  intro he
  exact hij ((List.Nodup.get_inj_iff hv.1).1 he)

theorem ports_bounds (io : IOPorts) (hv : io.valid) (i : Fin 17) :
    0xff40 ≤ io.all.get i ∧ io.all.get i ≤ 0xffff :=
  hv.2 _ (List.get_mem _ _ _)

theorem valid_DMAIO (io : IOPorts) (hv : io.valid) :
    (0xff40 ≤ io.DMAIO ∧ io.DMAIO ≤ 0xffff) ∧
    io.DMAIO ≠ io.LCDCIO ∧ io.DMAIO ≠ io.LCDSTATIO ∧ io.DMAIO ≠ io.BGPIO ∧
    io.DMAIO ≠ io.OBP0IO ∧ io.DMAIO ≠ io.OBP1IO ∧ io.DMAIO ≠ io.VBKIO ∧
    io.DMAIO ≠ io.HDMA5IO ∧ io.DMAIO ≠ io.BCPSIO ∧ io.DMAIO ≠ io.BCPDIO ∧
    io.DMAIO ≠ io.OCPSIO ∧ io.DMAIO ≠ io.OCPDIO ∧ io.DMAIO ≠ io.SVBKIO :=
  ⟨ports_bounds io hv 2, ports_ne io hv 2 0 (by decide), ports_ne io hv 2 1 (by decide),
   ports_ne io hv 2 3 (by decide), ports_ne io hv 2 4 (by decide),
   ports_ne io hv 2 5 (by decide), ports_ne io hv 2 6 (by decide),
   ports_ne io hv 2 11 (by decide), ports_ne io hv 2 12 (by decide),
   ports_ne io hv 2 13 (by decide), ports_ne io hv 2 14 (by decide),
   ports_ne io hv 2 15 (by decide), ports_ne io hv 2 16 (by decide)⟩

theorem SetMemory8_dma (env : Env σ ρ) (hv : env.io.valid) (fuel : Nat) (cpu : CPU σ ρ)
    (v : Nat) (hA : cpu.regA < 256) :
    SetMemory8 env (fuel + 2) cpu env.io.DMAIO v = .done (dmaResult env cpu v) := by
  obtain ⟨hD, d1, d2, d3, d4, d5, d6, d7, d8, d9, d10, d11, d12⟩ := valid_DMAIO env.io hv
  have hlow : ¬ env.io.DMAIO ≤ 0x7fff := by omega
  have hs1 : ¬ (0xff10 ≤ env.io.DMAIO ∧ env.io.DMAIO ≤ 0xff26) := by omega
  have hs2 : ¬ (0xff30 ≤ env.io.DMAIO ∧ env.io.DMAIO ≤ 0xff3f) := by omega
  have hstart : (cpu.regA <<< 8) % 65536 = cpu.regA * 256 := by
    rw [Nat.shiftLeft_eq]; exact Nat.mod_eq_of_lt (by omega)
  rw [SetMemory8]
  simp only [hlow, if_false, if_true, storeRegion_flat env cpu _ v (by omega : 0xe000 ≤ env.io.DMAIO)]
  rw [hstart, copyLoop_plain env hv fuel _ _ 160 0 _ (fun j _ h2 => by omega),
    copyPure_flat env _ 0xfe00 (by norm_num) 160 0 _ (by norm_num)
      (fun j k _ h2 h3 => by omega)]
  simp only [Outcome.andThen, registerEffects, colourEffects, hs1, hs2, d1, d2, d3, d4, d5, d6,
    d7, d8, d9, d10, d11, d12, if_false, Nat.add_zero]
  unfold dmaResult
  split_ifs <;> rfl

theorem fetch_flat_plain (env : Env σ ρ) (hv : env.io.valid) (cpu : CPU σ ρ) (x : Nat)
    (h1 : 0xe000 ≤ x) (h2 : x < 0xff10) : FetchMemory8 env cpu x = cpu.RAM x := by
  obtain ⟨p1, p2, -, -, -, -, -, -, -, -, -, -, -, p14, -, p16, -⟩ :=
    valid_ports_high env.io hv x (by omega)
  have c1 : ¬ (0x4000 ≤ x ∧ x < 0x8000) := by omega
  have c2 : ¬ (0x8000 ≤ x ∧ x < 0xa000) := by omega
  have c3 : ¬ (0xa000 ≤ x ∧ x < 0xc000) := by omega
  have c4 : ¬ (cpu.WRAMBankPtr > 1 ∧ 0xd000 ≤ x ∧ x < 0xe000) := by omega
  have c5 : ¬ ((0xff10 ≤ x ∧ x ≤ 0xff26) ∨ (0xff30 ≤ x ∧ x ≤ 0xff3f)) := by omega
  simp only [FetchMemory8, c1, c2, c3, c4, c5, p1, p2, p14, p16, if_false]

theorem fetch_DMAIO (env : Env σ ρ) (hv : env.io.valid) (cpu : CPU σ ρ) :
    FetchMemory8 env cpu env.io.DMAIO = cpu.RAM env.io.DMAIO := by
  obtain ⟨hD, d1, d2, -, -, -, -, -, -, d9, -, d11, -⟩ := valid_DMAIO env.io hv
  have c1 : ¬ (0x4000 ≤ env.io.DMAIO ∧ env.io.DMAIO < 0x8000) := by omega
  have c2 : ¬ (0x8000 ≤ env.io.DMAIO ∧ env.io.DMAIO < 0xa000) := by omega
  have c3 : ¬ (0xa000 ≤ env.io.DMAIO ∧ env.io.DMAIO < 0xc000) := by omega
  have c4 : ¬ (cpu.WRAMBankPtr > 1 ∧ 0xd000 ≤ env.io.DMAIO ∧ env.io.DMAIO < 0xe000) := by
    omega
  have c5 : ¬ ((0xff10 ≤ env.io.DMAIO ∧ env.io.DMAIO ≤ 0xff26) ∨
      (0xff30 ≤ env.io.DMAIO ∧ env.io.DMAIO ≤ 0xff3f)) := by omega
  simp only [FetchMemory8, c1, c2, c3, c4, c5, d1, d2, d9, d11, if_false]

/-- C5 (amended): on a valid port map, a write of `v` to the object-memory DMA trigger
returns in the state `dmaResult`; the 160 bytes are taken from source base `regA * 256`,
the accumulator, not from the written value: for every `i < 160` the read of `0xfe00 + i`
afterwards is the read of `regA * 256 + i` before the write, except that the trigger
register, when it lies in the source range, is read as `v`; no flat-RAM cell outside
`[0xfe00,0xfea0)` other than the trigger register changes, the trigger register holds `v`,
and the cycle counter has increased by exactly 150. -/
theorem dma_copy (env : Env σ ρ) (hv : env.io.valid) (fuel : Nat) (cpu : CPU σ ρ) (v : Nat)
    (hA : cpu.regA < 256) :
    SetMemory8 env (fuel + 2) cpu env.io.DMAIO v = .done (dmaResult env cpu v) ∧
    (∀ i, i < 160 →
      FetchMemory8 env (dmaResult env cpu v) (0xfe00 + i) =
        if cpu.regA * 256 + i = env.io.DMAIO then v
        else FetchMemory8 env cpu (cpu.regA * 256 + i)) ∧
    (∀ a, ¬ (0xfe00 ≤ a ∧ a < 0xfea0) → a ≠ env.io.DMAIO →
      (dmaResult env cpu v).RAM a = cpu.RAM a) ∧
    (dmaResult env cpu v).RAM env.io.DMAIO = v ∧
    (dmaResult env cpu v).cycleLine = cpu.cycleLine + 150 := by
  obtain ⟨hD, -⟩ := valid_DMAIO env.io hv
  refine ⟨SetMemory8_dma env hv fuel cpu v hA, fun i hi => ?_, fun a ha hne => ?_, ?_, rfl⟩
  · rw [fetch_flat_plain env hv _ _ (by omega) (by omega)]
    have hc : 0xfe00 ≤ 0xfe00 + i ∧ 0xfe00 + i < 0xfea0 := by omega
    have hm : (cpu.regA * 256 + (0xfe00 + i - 0xfe00)) % 65536 = cpu.regA * 256 + i := by
      rw [Nat.add_sub_cancel_left]; exact Nat.mod_eq_of_lt (by omega)
    simp only [dmaResult, hc, and_self, if_true, hm]
    by_cases hx : cpu.regA * 256 + i = env.io.DMAIO
    · rw [if_pos hx, hx, fetch_DMAIO env hv]
      simp only [setAt, if_true]
    · rw [if_neg hx]
      apply fetch_flat_update_ne
      simp only [setAt, hx, if_false]
  · simp only [dmaResult, ha, if_false, setAt, hne]
  · have hc : ¬ (0xfe00 ≤ env.io.DMAIO ∧ env.io.DMAIO < 0xfea0) := by omega
    simp only [dmaResult, hc, if_false, setAt, if_true]

/-- Instance of C5 (amended): with the accumulator holding `0x80`, a write of `0x80` to
the trigger `0xff46` lands video-RAM byte `0x8005` in cell `0xfe05`. -/
theorem dma_copy_witness :
    SetMemory8 sampleEnv 2 { sampleCPU "MBC1" 5 false with regA := 0x80 } 0xff46 0x80
      = .done (dmaResult sampleEnv { sampleCPU "MBC1" 5 false with regA := 0x80 } 0x80) ∧
    FetchMemory8 sampleEnv
        (dmaResult sampleEnv { sampleCPU "MBC1" 5 false with regA := 0x80 } 0x80) 0xfe05
      = FetchMemory8 sampleEnv { sampleCPU "MBC1" 5 false with regA := 0x80 } 0x8005 :=
  ⟨(dma_copy sampleEnv (by decide) 0 { sampleCPU "MBC1" 5 false with regA := 0x80 } 0x80
      (by decide)).1,
   (dma_copy sampleEnv (by decide) 0 { sampleCPU "MBC1" 5 false with regA := 0x80 } 0x80
      (by decide)).2.1 5 (by decide)⟩

/-- C5 as stated fails: (1) with the accumulator holding `0` and the written value `0x80`,
cell `0xfe00` receives the byte read at `0x0000` (1), not the byte at `0x8000` (7);
(2) with accumulator and written value both `0xff`, cell `0xfe46` receives the value just
stored in the trigger register (`0xff`), not what `0xff46` read before the write (`0x47`). -/
theorem dma_copy_counterexample :
    (SetMemory8 sampleEnv 2 (sampleCPU "MBC1" 5 false) 0xff46 0x80
        = .done (dmaResult sampleEnv (sampleCPU "MBC1" 5 false) 0x80) ∧
      FetchMemory8 sampleEnv (dmaResult sampleEnv (sampleCPU "MBC1" 5 false) 0x80) 0xfe00 = 1 ∧
      FetchMemory8 sampleEnv (sampleCPU "MBC1" 5 false) (0x80 * 256 + 0) = 7) ∧
    (SetMemory8 sampleEnv 2 { sampleCPU "MBC1" 5 false with regA := 0xff } 0xff46 0xff
        = .done (dmaResult sampleEnv { sampleCPU "MBC1" 5 false with regA := 0xff } 0xff) ∧
      FetchMemory8 sampleEnv
        (dmaResult sampleEnv { sampleCPU "MBC1" 5 false with regA := 0xff } 0xff)
        (0xfe00 + 0x46) = 0xff ∧
      FetchMemory8 sampleEnv { sampleCPU "MBC1" 5 false with regA := 0xff }
        (0xff * 256 + 0x46) = 0x47) :=
  ⟨⟨SetMemory8_dma sampleEnv (by decide) 0 _ 0x80 (by decide), by decide, by decide⟩,
   ⟨SetMemory8_dma sampleEnv (by decide) 0 _ 0xff (by decide), by decide, by decide⟩⟩

/-! ## Video DMA -/

theorem valid_HDMA5IO (io : IOPorts) (hv : io.valid) :
    (0xff40 ≤ io.HDMA5IO ∧ io.HDMA5IO ≤ 0xffff) ∧
    io.HDMA5IO ≠ io.LCDCIO ∧ io.HDMA5IO ≠ io.LCDSTATIO ∧ io.HDMA5IO ≠ io.DMAIO ∧
    io.HDMA5IO ≠ io.BGPIO ∧ io.HDMA5IO ≠ io.OBP0IO ∧ io.HDMA5IO ≠ io.OBP1IO ∧
    io.HDMA5IO ≠ io.VBKIO ∧ io.HDMA5IO ≠ io.BCPSIO ∧ io.HDMA5IO ≠ io.BCPDIO ∧
    io.HDMA5IO ≠ io.OCPSIO ∧ io.HDMA5IO ≠ io.OCPDIO ∧ io.HDMA5IO ≠ io.SVBKIO :=
  ⟨ports_bounds io hv 11, ports_ne io hv 11 0 (by decide), ports_ne io hv 11 1 (by decide),
   ports_ne io hv 11 2 (by decide), ports_ne io hv 11 3 (by decide),
   ports_ne io hv 11 4 (by decide), ports_ne io hv 11 5 (by decide),
   ports_ne io hv 11 6 (by decide), ports_ne io hv 11 12 (by decide),
   ports_ne io hv 11 13 (by decide), ports_ne io hv 11 14 (by decide),
   ports_ne io hv 11 15 (by decide), ports_ne io hv 11 16 (by decide)⟩

theorem fetch_high_flat (env : Env σ ρ) (cpu : CPU σ ρ) (x : Nat) (h : 0xff40 ≤ x)
    (n1 : x ≠ env.io.LCDCIO) (n2 : x ≠ env.io.LCDSTATIO) (n3 : x ≠ env.io.BCPDIO)
    (n4 : x ≠ env.io.OCPDIO) : FetchMemory8 env cpu x = cpu.RAM x := by
  have c1 : ¬ (0x4000 ≤ x ∧ x < 0x8000) := by omega
  have c2 : ¬ (0x8000 ≤ x ∧ x < 0xa000) := by omega
  have c3 : ¬ (0xa000 ≤ x ∧ x < 0xc000) := by omega
  have c4 : ¬ (cpu.WRAMBankPtr > 1 ∧ 0xd000 ≤ x ∧ x < 0xe000) := by omega
  have c5 : ¬ ((0xff10 ≤ x ∧ x ≤ 0xff26) ∨ (0xff30 ≤ x ∧ x ≤ 0xff3f)) := by omega
  simp only [FetchMemory8, c1, c2, c3, c4, c5, n1, n2, n3, n4, if_false]

theorem fetch_HDMA_registers (env : Env σ ρ) (hv : env.io.valid) (cpu : CPU σ ρ) :
    FetchMemory8 env cpu env.io.HDMA1IO = cpu.RAM env.io.HDMA1IO ∧
    FetchMemory8 env cpu env.io.HDMA2IO = cpu.RAM env.io.HDMA2IO ∧
    FetchMemory8 env cpu env.io.HDMA3IO = cpu.RAM env.io.HDMA3IO ∧
    FetchMemory8 env cpu env.io.HDMA4IO = cpu.RAM env.io.HDMA4IO ∧
    FetchMemory8 env cpu env.io.HDMA5IO = cpu.RAM env.io.HDMA5IO :=
  ⟨fetch_high_flat env cpu _ (ports_bounds env.io hv 7).1 (ports_ne env.io hv 7 0 (by decide))
      (ports_ne env.io hv 7 1 (by decide)) (ports_ne env.io hv 7 13 (by decide))
      (ports_ne env.io hv 7 15 (by decide)),
   fetch_high_flat env cpu _ (ports_bounds env.io hv 8).1 (ports_ne env.io hv 8 0 (by decide))
      (ports_ne env.io hv 8 1 (by decide)) (ports_ne env.io hv 8 13 (by decide))
      (ports_ne env.io hv 8 15 (by decide)),
   fetch_high_flat env cpu _ (ports_bounds env.io hv 9).1 (ports_ne env.io hv 9 0 (by decide))
      (ports_ne env.io hv 9 1 (by decide)) (ports_ne env.io hv 9 13 (by decide))
      (ports_ne env.io hv 9 15 (by decide)),
   fetch_high_flat env cpu _ (ports_bounds env.io hv 10).1
      (ports_ne env.io hv 10 0 (by decide)) (ports_ne env.io hv 10 1 (by decide))
      (ports_ne env.io hv 10 13 (by decide)) (ports_ne env.io hv 10 15 (by decide)),
   fetch_high_flat env cpu _ (ports_bounds env.io hv 11).1
      (ports_ne env.io hv 11 0 (by decide)) (ports_ne env.io hv 11 1 (by decide))
      (ports_ne env.io hv 11 13 (by decide)) (ports_ne env.io hv 11 15 (by decide))⟩

/-- Storing the control byte in the trigger register does not move the assembled source
and destination addresses. -/
theorem hdma_addresses_store (env : Env σ ρ) (hv : env.io.valid) (cpu : CPU σ ρ) (c : Nat) :
    hdmaFrom env { cpu with RAM := setAt cpu.RAM env.io.HDMA5IO c } = hdmaFrom env cpu ∧
    hdmaTo env { cpu with RAM := setAt cpu.RAM env.io.HDMA5IO c } = hdmaTo env cpu := by
  obtain ⟨f1, f2, f3, f4, -⟩ := fetch_HDMA_registers env hv cpu
  obtain ⟨g1, g2, g3, g4, -⟩ :=
    fetch_HDMA_registers env hv { cpu with RAM := setAt cpu.RAM env.io.HDMA5IO c }
  have e1 : env.io.HDMA1IO ≠ env.io.HDMA5IO := ports_ne env.io hv 7 11 (by decide)
  have e2 : env.io.HDMA2IO ≠ env.io.HDMA5IO := ports_ne env.io hv 8 11 (by decide)
  have e3 : env.io.HDMA3IO ≠ env.io.HDMA5IO := ports_ne env.io hv 9 11 (by decide)
  have e4 : env.io.HDMA4IO ≠ env.io.HDMA5IO := ports_ne env.io hv 10 11 (by decide)
  simp only [hdmaFrom, hdmaTo, f1, f2, f3, f4, g1, g2, g3, g4, setAt, e1, e2, e3, e4, if_false,
    and_self]

/-- The top three bits of the destination high byte are forced to `100`: the assembled
destination lies in `[0x8000, 0x9ff0]`. -/
theorem hdmaTo_bounds (env : Env σ ρ) (cpu : CPU σ ρ) :
    0x8000 ≤ hdmaTo env cpu ∧ hdmaTo env cpu ≤ 0x9ff0 := by
  simp only [hdmaTo]
  generalize FetchMemory8 env cpu env.io.HDMA3IO = x
  generalize FetchMemory8 env cpu env.io.HDMA4IO = y
  have hu1 : (x ||| (1 <<< 7)) &&& 0x9f ≤ 0x9f := Nat.and_le_right
  have hu2 : 2 ^ 7 ≤ (x ||| (1 <<< 7)) &&& 0x9f := by
    apply Nat.testBit_implies_ge
    rw [Nat.testBit_and, Nat.testBit_or]
    have h1 : (1 <<< 7).testBit 7 = true := by decide
    have h2 : (0x9f).testBit 7 = true := by decide
    rw [h1, h2, Bool.or_true, Bool.and_true]
  have hl : y &&& 0xf0 ≤ 0xf0 := Nat.and_le_right
  generalize (x ||| (1 <<< 7)) &&& 0x9f = u at hu1 hu2
  generalize y &&& 0xf0 = l at hl
  have hs : (u <<< 8) % 65536 = 2 ^ 8 * u := by
    rw [Nat.shiftLeft_eq, Nat.mul_comm]; exact Nat.mod_eq_of_lt (by omega)
  rw [hs, ← Nat.mul_add_lt_is_or (by omega : l < 2 ^ 8)]
  omega

/-- The assembled addresses in terms of the register bytes: the destination is
`(((HDMA3 | 0x80) & 0x9f) << 8) | (HDMA4 & 0xf0)` and, for a byte in `HDMA1`, the source is
`(HDMA1 << 8) | (HDMA2 & 0xf0)`. -/
theorem hdma_addresses_formula (env : Env σ ρ) (hv : env.io.valid) (cpu : CPU σ ρ) :
    hdmaTo env cpu =
      (((cpu.RAM env.io.HDMA3IO ||| 0x80) &&& 0x9f) <<< 8) ||| (cpu.RAM env.io.HDMA4IO &&& 0xf0) ∧
    (cpu.RAM env.io.HDMA1IO < 256 →
      hdmaFrom env cpu =
        (cpu.RAM env.io.HDMA1IO <<< 8) ||| (cpu.RAM env.io.HDMA2IO &&& 0xf0)) := by
  obtain ⟨f1, f2, f3, f4, -⟩ := fetch_HDMA_registers env hv cpu
  have h80 : (1 <<< 7 : Nat) = 0x80 := by decide
  constructor
  · have hu : (cpu.RAM env.io.HDMA3IO ||| 0x80) &&& 0x9f ≤ 0x9f := Nat.and_le_right
    have hm : (((cpu.RAM env.io.HDMA3IO ||| 0x80) &&& 0x9f) <<< 8) % 65536
        = ((cpu.RAM env.io.HDMA3IO ||| 0x80) &&& 0x9f) <<< 8 := by
      rw [Nat.shiftLeft_eq]; exact Nat.mod_eq_of_lt (by omega)
    simp only [hdmaTo, f3, f4, h80, hm]
  · intro hb
    have hm : (cpu.RAM env.io.HDMA1IO <<< 8) % 65536 = cpu.RAM env.io.HDMA1IO <<< 8 := by
      rw [Nat.shiftLeft_eq]; exact Nat.mod_eq_of_lt (by omega)
    simp only [hdmaFrom, f1, f2, hm]

theorem storeRegion_vram (env : Env σ ρ) (cpu : CPU σ ρ) (addr value : Nat)
    (h1 : 0x8000 ≤ addr) (h2 : addr < 0xa000) :
    storeRegion env cpu addr value =
      { cpu with GPU := { cpu.GPU with
          VRAMBank := setBank cpu.GPU.VRAMBank cpu.GPU.VRAMBankPtr (addr - 0x8000) value } } := by
  simp only [storeRegion, h1, h2, and_self, if_true]

theorem fetch_vram_update (env : Env σ ρ) (cpu : CPU σ ρ) (vb : Nat → Nat → Nat) (x : Nat)
    (h : 0x8000 ≤ x → x < 0xa000 →
      vb cpu.GPU.VRAMBankPtr (x - 0x8000) = cpu.GPU.VRAMBank cpu.GPU.VRAMBankPtr (x - 0x8000)) :
    FetchMemory8 env { cpu with GPU := { cpu.GPU with VRAMBank := vb } } x
      = FetchMemory8 env cpu x := by
  by_cases hx : 0x8000 ≤ x ∧ x < 0xa000
  · have c1 : ¬ (0x4000 ≤ x ∧ x < 0x8000) := by omega
    simp only [FetchMemory8, c1, hx, and_self, if_true, if_false, h hx.1 hx.2]
  · simp only [FetchMemory8, hx, if_false]

/-- The video-RAM image of a byte loop whose destination range lies inside the video-RAM
window, when no source byte is read after its cell has been overwritten. -/
theorem copyPure_vram (env : Env σ ρ) (src dst : Nat) (hd : 0x8000 ≤ dst) :
    ∀ (count i : Nat) (cpu : CPU σ ρ), dst + i + count ≤ 0xa000 →
      (∀ j k, i ≤ j → j < k → k < i + count → (src + k) % 65536 ≠ dst + j) →
      copyPure env src dst count i cpu =
        { cpu with
          GPU := { cpu.GPU with
            VRAMBank := fun b o =>
              if b = cpu.GPU.VRAMBankPtr ∧
                  dst + i ≤ 0x8000 + o ∧ 0x8000 + o < dst + i + count then
                FetchMemory8 env cpu ((src + (0x8000 + o - dst)) % 65536)
              else cpu.GPU.VRAMBank b o } }
  | 0, i, cpu, _, _ => by
    have : ∀ b o, ¬ (b = cpu.GPU.VRAMBankPtr ∧ dst + i ≤ 0x8000 + o ∧ 0x8000 + o < dst + i + 0) :=
      fun b o => by omega
    simp only [copyPure, this, if_false]
  | count + 1, i, cpu, hb, hs => by
    have hm : (dst + i) % 65536 = dst + i := Nat.mod_eq_of_lt (by omega)
    rw [copyPure, hm, storeRegion_vram env cpu _ _ (by omega) (by omega),
      copyPure_vram env src dst hd count (i + 1) _ (by omega)
        (fun j k h1 h2 h3 => hs j k (by omega) h2 (by omega))]
    congr 1
    dsimp only
    congr 1
    funext b o
    by_cases hp : b = cpu.GPU.VRAMBankPtr
    · by_cases ha : dst + (i + 1) ≤ 0x8000 + o ∧ 0x8000 + o < dst + (i + 1) + count
      · have ha2 : dst + i ≤ 0x8000 + o ∧ 0x8000 + o < dst + i + (count + 1) := by omega
        simp only [hp, ha, ha2, and_self, if_true]
        apply fetch_vram_update
        intro hx1 hx2
        have hne := hs i (0x8000 + o - dst) (Nat.le_refl i) (by omega) (by omega)
        have hoff : ¬ ((src + (0x8000 + o - dst)) % 65536 - 0x8000 = dst + i - 0x8000) := by
          omega
        simp only [setBank, hoff, and_false, if_false]
      · have hn1 : ¬ (b = cpu.GPU.VRAMBankPtr ∧
            dst + (i + 1) ≤ 0x8000 + o ∧ 0x8000 + o < dst + (i + 1) + count) :=
          fun h => ha h.2
        rw [if_neg hn1]
        by_cases ha3 : o = dst + i - 0x8000
        · have hk : 0x8000 + o - dst = i := by omega
          have hp2 : b = cpu.GPU.VRAMBankPtr ∧
              dst + i ≤ 0x8000 + o ∧ 0x8000 + o < dst + i + (count + 1) :=
            ⟨hp, by omega, by omega⟩
          rw [if_pos hp2, hk]
          simp only [setBank]
          rw [if_pos ⟨hp, ha3⟩]
        · have hn2 : ¬ (b = cpu.GPU.VRAMBankPtr ∧
              dst + i ≤ 0x8000 + o ∧ 0x8000 + o < dst + i + (count + 1)) :=
            fun h => by omega
          rw [if_neg hn2]
          simp only [setBank, ha3, and_false, if_false]
    · simp only [hp, false_and, if_false, setBank]

theorem hdmaLength_le (c : Nat) : hdmaLength c ≤ 2048 := by
  unfold hdmaLength
  rw [and_0x7f]
  omega

theorem SetMemory8_hdma (env : Env σ ρ) (hv : env.io.valid) (fuel : Nat) (cpu : CPU σ ρ)
    (c : Nat) (hcgb : cpu.Cartridge.IsCGB = true) (hc : c < 256)
    (hfit : hdmaTo env cpu + hdmaLength c ≤ 0xa000)
    (hord : ∀ j k, j < k → k < hdmaLength c →
      (hdmaFrom env cpu + k) % 65536 ≠ hdmaTo env cpu + j) :
    SetMemory8 env (fuel + 2) cpu env.io.HDMA5IO c = .done (hdmaResult env cpu c) := by
  obtain ⟨hH, d1, d2, d3, d4, d5, d6, d7, d8, d9, d10, d11, d12⟩ := valid_HDMA5IO env.io hv
  obtain ⟨hfrom, hto⟩ := hdma_addresses_store env hv cpu c
  obtain ⟨-, -, -, -, f5⟩ :=
    fetch_HDMA_registers env hv { cpu with RAM := setAt cpu.RAM env.io.HDMA5IO c }
  have hval : FetchMemory8 env { cpu with RAM := setAt cpu.RAM env.io.HDMA5IO c }
      env.io.HDMA5IO = c := by
    rw [f5]; simp only [setAt, if_true]
  obtain ⟨hto1, hto2⟩ := hdmaTo_bounds env cpu
  have hlow : ¬ env.io.HDMA5IO ≤ 0x7fff := by omega
  have hs1 : ¬ (0xff10 ≤ env.io.HDMA5IO ∧ env.io.HDMA5IO ≤ 0xff26) := by omega
  have hs2 : ¬ (0xff30 ≤ env.io.HDMA5IO ∧ env.io.HDMA5IO ≤ 0xff3f) := by omega
  have hloop : copyLoop env (SetMemory8 env (fuel + 1)) (hdmaFrom env cpu) (hdmaTo env cpu)
      (hdmaLength c) 0 { cpu with RAM := setAt cpu.RAM env.io.HDMA5IO c }
        = .done { cpu with
            RAM := setAt cpu.RAM env.io.HDMA5IO c
            GPU := (hdmaResult env cpu c).GPU } := by
    rw [copyLoop_plain env hv fuel _ _ _ 0 _ (fun j _ h2 => by
        have : (hdmaTo env cpu + j) % 65536 = hdmaTo env cpu + j :=
          Nat.mod_eq_of_lt (by omega)
        omega),
      copyPure_vram env _ _ hto1 _ 0 _ (by omega) (fun j k _ h2 h3 => hord j k h2 (by omega))]
    simp only [hdmaResult, Nat.add_zero]
  rw [SetMemory8]
  simp only [hlow, if_false, if_true, d3,
    storeRegion_flat env cpu _ c (by omega : 0xe000 ≤ env.io.HDMA5IO), Outcome.andThen,
    registerEffects, hs1, hs2, d1, d2, d4, d5, d6, d7, hcgb, hdmaTransfer, hval, hfrom, hto]
  have hl : ((c &&& 0x7f) + 1) * 16 = hdmaLength c := rfl
  rw [hl, hloop]
  have hmode : c >>> 7 = 0 ∨ c >>> 7 = 1 := by
    rw [Nat.shiftRight_eq_div_pow]; omega
  have h01 : ¬ ((0 : Nat) = 1) := by decide
  have h10 : ¬ ((1 : Nat) = 0) := by decide
  rcases hmode with hm | hm
  · simp only [hm, if_true, colourEffects, d8, d9, d10, d11, d12, if_false, hdmaResult, h01]
  · simp only [hm, h10, if_true, if_false, colourEffects, d8, d9, d10, d11, d12, hdmaResult]

theorem fetch_vram (env : Env σ ρ) (cpu : CPU σ ρ) (x : Nat) (h1 : 0x8000 ≤ x)
    (h2 : x < 0xa000) :
    FetchMemory8 env cpu x = cpu.GPU.VRAMBank cpu.GPU.VRAMBankPtr (x - 0x8000) := by
  have c1 : ¬ (0x4000 ≤ x ∧ x < 0x8000) := by omega
  simp only [FetchMemory8, c1, h1, h2, and_self, if_true, if_false]

/-- C6 (amended): in colour mode, on a valid port map, a write of the control byte `c` to
the video-DMA trigger copies `n = ((c & 0x7f) + 1) * 16` bytes from the assembled source to
the assembled destination. Whenever the source range does not meet the destination range
and `dst + n <= 0xa000`: the write returns in the state `hdmaResult`; for every `i < n`
the read of `dst + i` afterwards is the read of `src + i` (as a 16-bit address) before
the write, except that the trigger register, when it lies in the source range, is read as
the control byte `c` just stored in it; every byte of the active video-RAM bank outside
`[dst, dst + n)` is unchanged and the video-RAM bank pointer is unchanged; for `c = 0`
the length is 16. Here `dst = (((HDMA3 | 0x80) & 0x9f) << 8) | (HDMA4 & 0xf0)` and, for a
byte in `HDMA1`, `src = (HDMA1 << 8) | (HDMA2 & 0xf0)`. -/
theorem hdma_copy (env : Env σ ρ) (hv : env.io.valid) (fuel : Nat) (cpu : CPU σ ρ) (c : Nat)
    (hcgb : cpu.Cartridge.IsCGB = true) (hc : c < 256)
    (hfit : hdmaTo env cpu + hdmaLength c ≤ 0xa000)
    (hdisj : ∀ i j, i < hdmaLength c → j < hdmaLength c →
      (hdmaFrom env cpu + i) % 65536 ≠ hdmaTo env cpu + j) :
    SetMemory8 env (fuel + 2) cpu env.io.HDMA5IO c = .done (hdmaResult env cpu c) ∧
    (∀ i, i < hdmaLength c →
      FetchMemory8 env (hdmaResult env cpu c) (hdmaTo env cpu + i) =
        if (hdmaFrom env cpu + i) % 65536 = env.io.HDMA5IO then c
        else FetchMemory8 env cpu ((hdmaFrom env cpu + i) % 65536)) ∧
    (∀ o, ¬ (hdmaTo env cpu ≤ 0x8000 + o ∧ 0x8000 + o < hdmaTo env cpu + hdmaLength c) →
      (hdmaResult env cpu c).GPU.VRAMBank cpu.GPU.VRAMBankPtr o
        = cpu.GPU.VRAMBank cpu.GPU.VRAMBankPtr o) ∧
    (hdmaResult env cpu c).GPU.VRAMBankPtr = cpu.GPU.VRAMBankPtr ∧
    hdmaLength 0 = 16 ∧
    hdmaTo env cpu =
      (((cpu.RAM env.io.HDMA3IO ||| 0x80) &&& 0x9f) <<< 8) ||| (cpu.RAM env.io.HDMA4IO &&& 0xf0) ∧
    (cpu.RAM env.io.HDMA1IO < 256 →
      hdmaFrom env cpu =
        (cpu.RAM env.io.HDMA1IO <<< 8) ||| (cpu.RAM env.io.HDMA2IO &&& 0xf0)) := by
  obtain ⟨hto1, -⟩ := hdmaTo_bounds env cpu
  refine ⟨SetMemory8_hdma env hv fuel cpu c hcgb hc hfit
      (fun j k h1 h2 => hdisj k j h2 (by omega)), fun i hi => ?_, fun o ho => ?_, rfl, rfl,
      hdma_addresses_formula env hv cpu⟩
  · rw [fetch_vram env _ _ (by omega) (by omega)]
    have hcond : hdmaTo env cpu ≤ 0x8000 + (hdmaTo env cpu + i - 0x8000) ∧
        0x8000 + (hdmaTo env cpu + i - 0x8000) < hdmaTo env cpu + hdmaLength c :=
      ⟨by omega, by omega⟩
    have hk : 0x8000 + (hdmaTo env cpu + i - 0x8000) - hdmaTo env cpu = i := by omega
    simp only [hdmaResult, true_and]
    rw [if_pos hcond, hk]
    by_cases hx : (hdmaFrom env cpu + i) % 65536 = env.io.HDMA5IO
    · rw [if_pos hx, hx, (fetch_HDMA_registers env hv _).2.2.2.2]
      simp only [setAt, if_true]
    · rw [if_neg hx]
      apply fetch_flat_update_ne
      simp only [setAt, hx, if_false]
  · simp only [hdmaResult, true_and]
    rw [if_neg ho]

theorem sampleHDMA_addresses :
    hdmaFrom sampleEnv (sampleHDMA 0x52 0x53 0x54 0x55) = 0x5250 ∧
    hdmaTo sampleEnv (sampleHDMA 0x52 0x53 0x54 0x55) = 0x9450 ∧
    hdmaFrom sampleEnv (sampleHDMA 0xff 0x50 0x54 0x55) = 0xff50 ∧
    hdmaTo sampleEnv (sampleHDMA 0xff 0x50 0x54 0x55) = 0x9450 := by
  decide

/-- Instance of C6 (amended): source `0x5250` in the switchable ROM window, destination
`0x9450`, control byte 0: byte 3 of the sixteen lands at `0x9453`. -/
theorem hdma_copy_witness :
    SetMemory8 sampleEnv 2 (sampleHDMA 0x52 0x53 0x54 0x55) 0xff55 0
      = .done (hdmaResult sampleEnv (sampleHDMA 0x52 0x53 0x54 0x55) 0) ∧
    FetchMemory8 sampleEnv (hdmaResult sampleEnv (sampleHDMA 0x52 0x53 0x54 0x55) 0)
        (hdmaTo sampleEnv (sampleHDMA 0x52 0x53 0x54 0x55) + 3)
      = FetchMemory8 sampleEnv (sampleHDMA 0x52 0x53 0x54 0x55) 0x5253 := by
  have h := hdma_copy sampleEnv (by decide) 0 (sampleHDMA 0x52 0x53 0x54 0x55) 0 rfl
    (by decide) (by decide) (by
      intro i j hi hj
      rw [sampleHDMA_addresses.1, sampleHDMA_addresses.2.1]
      have : hdmaLength 0 = 16 := rfl
      omega)
  refine ⟨h.1, ?_⟩
  have h3 := h.2.1 3 (by decide)
  rw [h3, sampleHDMA_addresses.1]
  decide

/-- C6 as stated fails: with source `0xff50`, destination `0x9450` and control byte 0 the
ranges are disjoint and the destination fits, yet `0x9455` receives the control byte 0
just stored in the trigger register `0xff55`, not the `0x56` that `0xff55` read before
the write. -/
theorem hdma_copy_counterexample :
    SetMemory8 sampleEnv 2 (sampleHDMA 0xff 0x50 0x54 0x55) 0xff55 0
      = .done (hdmaResult sampleEnv (sampleHDMA 0xff 0x50 0x54 0x55) 0) ∧
    hdmaFrom sampleEnv (sampleHDMA 0xff 0x50 0x54 0x55) + 5 = 0xff55 ∧
    hdmaTo sampleEnv (sampleHDMA 0xff 0x50 0x54 0x55) + 5 = 0x9455 ∧
    FetchMemory8 sampleEnv (hdmaResult sampleEnv (sampleHDMA 0xff 0x50 0x54 0x55) 0) 0x9455 = 0 ∧
    FetchMemory8 sampleEnv (sampleHDMA 0xff 0x50 0x54 0x55) 0xff55 = 0x56 := by
  refine ⟨SetMemory8_hdma sampleEnv (by decide) 0 _ 0 rfl (by decide) (by decide) ?_,
    by decide, by decide, by decide, by decide⟩
  intro j k hjk hk
  rw [sampleHDMA_addresses.2.2.1, sampleHDMA_addresses.2.2.2]
  have : hdmaLength 0 = 16 := rfl
  omega

/-- C7, the code at the failing inputs: in colour mode the mode-1 control byte `0x80`
written to the trigger `0xff55` leaves the trigger register reading `0x80` and puts the
`0xff` marker into flat-RAM cell `0x80` (which held `0x81`); the mode-0 control byte
`0x00` leaves the trigger register reading `0x00`. -/
theorem hdma_sentinel_failing_input :
    (SetMemory8 sampleEnv 2 (sampleHDMA 0x52 0x53 0x54 0x55) 0xff55 0x80
        = .done (hdmaResult sampleEnv (sampleHDMA 0x52 0x53 0x54 0x55) 0x80) ∧
      FetchMemory8 sampleEnv (hdmaResult sampleEnv (sampleHDMA 0x52 0x53 0x54 0x55) 0x80)
        0xff55 = 0x80 ∧
      (sampleHDMA 0x52 0x53 0x54 0x55).RAM 0x80 = 0x81 ∧
      (hdmaResult sampleEnv (sampleHDMA 0x52 0x53 0x54 0x55) 0x80).RAM 0x80 = 0xff) ∧
    (SetMemory8 sampleEnv 2 (sampleHDMA 0x52 0x53 0x54 0x55) 0xff55 0x00
        = .done (hdmaResult sampleEnv (sampleHDMA 0x52 0x53 0x54 0x55) 0x00) ∧
      FetchMemory8 sampleEnv (hdmaResult sampleEnv (sampleHDMA 0x52 0x53 0x54 0x55) 0x00)
        0xff55 = 0x00) := by
  have hdis : ∀ c, hdmaLength c = 16 → ∀ j k, j < k → k < hdmaLength c →
      (hdmaFrom sampleEnv (sampleHDMA 0x52 0x53 0x54 0x55) + k) % 65536
        ≠ hdmaTo sampleEnv (sampleHDMA 0x52 0x53 0x54 0x55) + j := by
    intro c hlen j k _ hk
    rw [sampleHDMA_addresses.1, sampleHDMA_addresses.2.1]
    omega
  exact ⟨⟨SetMemory8_hdma sampleEnv (by decide) 0 _ 0x80 rfl (by decide) (by decide)
        (hdis 0x80 rfl), by decide, by decide, by decide⟩,
    ⟨SetMemory8_hdma sampleEnv (by decide) 0 _ 0x00 rfl (by decide) (by decide)
        (hdis 0x00 rfl), by decide⟩⟩

/-! ## MBC1: composition of the ROM pointer -/

theorem or_low_bits (k l : Nat) (hl : l < 32) : (32 * k) ||| l = 32 * k + l :=
  (Nat.mul_add_lt_is_or (by omega : l < 2 ^ 5) k).symm

theorem keep_upper (p : Nat) : ((p >>> 5) <<< 5) % 256 = 32 * (p / 32 % 8) := by
  rw [shiftRight_5, shiftLeft_5]
  omega

theorem shift_upper (v : Nat) : (v <<< 5) % 256 = 32 * (v % 8) := by
  rw [shiftLeft_5]
  omega

/-- C8, the code at the failing input: MBC1, size class 5, ROM pointer 1; the write of
`0x21` to `0x2000` is accepted and the new pointer is `0x21`, whose bits 5-6 are `01`
while those of the pointer before the write were `00`. -/
theorem mbc1_select_failing_input :
    SetMemory8 sampleEnv 1 (sampleCPU "MBC1" 5 false) 0x2000 0x21
      = .done { sampleCPU "MBC1" 5 false with ROMBankPtr := 0x21 } ∧
    (0x21 >>> 5) % 4 = 1 ∧ ((sampleCPU "MBC1" 5 false).ROMBankPtr >>> 5) % 4 = 0 := by
  refine ⟨?_, by decide, by decide⟩
  rw [SetMemory8_command _ _ _ _ _ (by decide),
    controllerCommand_mbc1_select _ _ _ rfl (by decide) (by decide),
    switchROMBank_class _ _ (by decide) (by decide)]
  rfl

/-- C9 (amended): for an MBC1 cartridge of size class 1..6 and `a` in `[0x2000,0x4000)`,
a write of 0 is coerced to 1 and keeps the pointer's bits above bit 4: when the current
ROM pointer is below 32 the write returns with ROM pointer 1; in general it returns with
the pointer either as it was or equal to `32 * (old / 32 mod 8) + 1`. -/
theorem mbc1_select_zero (env : Env σ ρ) (fuel : Nat) (cpu : CPU σ ρ) (a : Nat)
    (hm : cpu.Cartridge.MBC = "MBC1")
    (h1 : 1 ≤ cpu.Cartridge.ROMSize) (h6 : cpu.Cartridge.ROMSize ≤ 6)
    (ha : 0x2000 ≤ a ∧ a < 0x4000) :
    (cpu.ROMBankPtr < 32 →
      SetMemory8 env (fuel + 1) cpu a 0 = .done { cpu with ROMBankPtr := 1 }) ∧
    (∃ cpu1, SetMemory8 env (fuel + 1) cpu a 0 = .done cpu1 ∧
      (cpu1.ROMBankPtr = cpu.ROMBankPtr ∨
        cpu1.ROMBankPtr = 32 * (cpu.ROMBankPtr / 32 % 8) + 1)) := by
  have hcmd : SetMemory8 env (fuel + 1) cpu a 0 =
      .done (if 32 * (cpu.ROMBankPtr / 32 % 8) + 1 < 2 ^ (cpu.Cartridge.ROMSize + 1) then
        { cpu with ROMBankPtr := 32 * (cpu.ROMBankPtr / 32 % 8) + 1 } else cpu) := by
    rw [SetMemory8_command env fuel cpu a 0 (by omega),
      controllerCommand_mbc1_select cpu a 0 hm ha.1 ha.2, if_pos rfl, keep_upper,
      or_low_bits _ 1 (by decide), switchROMBank_class cpu _ h1 h6]
  refine ⟨fun hp => ?_, ?_⟩
  · have hk : 32 * (cpu.ROMBankPtr / 32 % 8) + 1 = 1 := by omega
    have hlim : (2 : Nat) ^ 2 ≤ 2 ^ (cpu.Cartridge.ROMSize + 1) :=
      Nat.pow_le_pow_right (by norm_num) (by omega)
    rw [hcmd, hk, if_pos (by omega)]
  · rw [hcmd]
    by_cases hacc : 32 * (cpu.ROMBankPtr / 32 % 8) + 1 < 2 ^ (cpu.Cartridge.ROMSize + 1)
    · exact ⟨_, by rw [if_pos hacc], Or.inr rfl⟩
    · exact ⟨_, by rw [if_neg hacc], Or.inl rfl⟩

/-- Instance of C9 (amended): size class 1, ROM pointer 3, write of 0 to `0x2abc`. -/
theorem mbc1_select_zero_witness :
    SetMemory8 sampleEnv 1 { sampleCPU "MBC1" 1 false with ROMBankPtr := 3 } 0x2abc 0
      = .done { sampleCPU "MBC1" 1 false with ROMBankPtr := 1 } :=
  (mbc1_select_zero sampleEnv 0 { sampleCPU "MBC1" 1 false with ROMBankPtr := 3 } 0x2abc rfl
    (by decide) (by decide) (by decide)).1 (by decide)

/-- C9 as stated fails: MBC1, size class 5, ROM pointer 33; the write of 0 to `0x2000`
returns with ROM pointer 33, not 1. -/
theorem mbc1_select_zero_counterexample :
    SetMemory8 sampleEnv 1 { sampleCPU "MBC1" 5 false with ROMBankPtr := 33 } 0x2000 0
      = .done { sampleCPU "MBC1" 5 false with ROMBankPtr := 33 } ∧ (33 : Nat) ≠ 1 := by
  refine ⟨?_, by decide⟩
  rw [SetMemory8_command _ _ _ _ _ (by decide),
    controllerCommand_mbc1_select _ _ _ rfl (by decide) (by decide),
    switchROMBank_class _ _ (by decide) (by decide)]
  rfl

/-- C10 (amended): for an MBC1 cartridge, every written value `v` and `a` in
`[0x4000,0x6000)`. In bank mode 0 the candidate ROM pointer `(v << 5) | (old & 0x1f)`,
computed in 8 bits, is `32 * (v mod 8) + old mod 32`: with size class 1..6 the write
returns with the ROM pointer set to the candidate when it is below `2^(c+1)` and with the
state as it was otherwise, with size class 0 it returns the state as it was, and with an
unrecognised size class it ends in the fatal error with the state as it was; so whenever
the write returns, the ROM pointer's low 5 bits and the external-RAM pointer are as
before, and the pointer is as before or its upper bits are `v mod 8`. In bank mode 1 the
write returns with the external-RAM pointer set to `v` and nothing else changed. -/
theorem mbc1_secondary (env : Env σ ρ) (fuel : Nat) (cpu : CPU σ ρ) (a v : Nat)
    (hm : cpu.Cartridge.MBC = "MBC1") (ha : 0x4000 ≤ a ∧ a < 0x6000) :
    (cpu.bankMode = 0 →
      ((v <<< 5) % 256) ||| (cpu.ROMBankPtr &&& 0x1f) = 32 * (v % 8) + cpu.ROMBankPtr % 32 ∧
      (1 ≤ cpu.Cartridge.ROMSize ∧ cpu.Cartridge.ROMSize ≤ 6 →
        SetMemory8 env (fuel + 1) cpu a v =
          .done (if 32 * (v % 8) + cpu.ROMBankPtr % 32 < 2 ^ (cpu.Cartridge.ROMSize + 1) then
            { cpu with ROMBankPtr := 32 * (v % 8) + cpu.ROMBankPtr % 32 } else cpu)) ∧
      (cpu.Cartridge.ROMSize = 0 → SetMemory8 env (fuel + 1) cpu a v = .done cpu) ∧
      (6 < cpu.Cartridge.ROMSize → SetMemory8 env (fuel + 1) cpu a v = .fatal cpu) ∧
      (∀ cpu1, SetMemory8 env (fuel + 1) cpu a v = .done cpu1 →
        cpu1.ROMBankPtr % 32 = cpu.ROMBankPtr % 32 ∧ cpu1.RAMBankPtr = cpu.RAMBankPtr ∧
        (cpu1.ROMBankPtr = cpu.ROMBankPtr ∨ cpu1.ROMBankPtr / 32 = v % 8))) ∧
    (cpu.bankMode = 1 →
      SetMemory8 env (fuel + 1) cpu a v = .done { cpu with RAMBankPtr := v }) := by
  have hlow : a ≤ 0x7fff := by omega
  have hcand : ((v <<< 5) % 256) ||| (cpu.ROMBankPtr &&& 0x1f)
      = 32 * (v % 8) + cpu.ROMBankPtr % 32 := by
    rw [shift_upper, and_0x1f, or_low_bits _ _ (Nat.mod_lt _ (by decide))]
  refine ⟨fun hb => ?_, fun hb => ?_⟩
  · have hcmd : SetMemory8 env (fuel + 1) cpu a v
        = switchROMBank cpu (32 * (v % 8) + cpu.ROMBankPtr % 32) := by
      rw [SetMemory8_command env fuel cpu a v hlow,
        controllerCommand_mbc1_upper cpu a v hm hb ha.1 ha.2, hcand]
    refine ⟨hcand, fun hc => ?_, fun hc => ?_, fun hc => ?_, fun cpu1 h1 => ?_⟩
    · rw [hcmd, switchROMBank_class cpu _ hc.1 hc.2]
    · rw [hcmd, switchROMBank_class_zero cpu _ hc]
    · rw [hcmd, switchROMBank_fatal cpu _ hc]
    · rw [hcmd] at h1
      by_cases h6 : 6 < cpu.Cartridge.ROMSize
      · rw [switchROMBank_fatal cpu _ h6] at h1
        cases h1
      · by_cases h0 : cpu.Cartridge.ROMSize = 0
        · rw [switchROMBank_class_zero cpu _ h0] at h1
          injection h1 with h1
          subst h1
          exact ⟨rfl, rfl, Or.inl rfl⟩
        · rw [switchROMBank_class cpu _ (by omega) (by omega)] at h1
          injection h1 with h1
          subst h1
          split_ifs
          · exact ⟨by show (32 * (v % 8) + cpu.ROMBankPtr % 32) % 32 = _; omega, rfl,
              Or.inr (by show (32 * (v % 8) + cpu.ROMBankPtr % 32) / 32 = _; omega)⟩
          · exact ⟨rfl, rfl, Or.inl rfl⟩
  · rw [SetMemory8_command env fuel cpu a v hlow,
      controllerCommand_mbc1_ram cpu a v hm hb ha.1 ha.2]

/-- Instance of C10 (amended): bank mode 1, value 200 written to `0x4000`. -/
theorem mbc1_secondary_witness :
    SetMemory8 sampleEnv 1 { sampleCPU "MBC1" 5 false with bankMode := 1 } 0x4000 200
      = .done { sampleCPU "MBC1" 5 false with bankMode := 1, RAMBankPtr := 200 } :=
  (mbc1_secondary sampleEnv 0 { sampleCPU "MBC1" 5 false with bankMode := 1 } 0x4000 200 rfl
    (by decide)).2 rfl

/-- C10 as stated fails: MBC1, size class 5, bank mode 0, ROM pointer 1; the write of 9 to
`0x4000` is accepted and sets the ROM pointer to 33, whose upper bits are 1, not 9. -/
theorem mbc1_secondary_counterexample :
    SetMemory8 sampleEnv 1 (sampleCPU "MBC1" 5 false) 0x4000 9
      = .done { sampleCPU "MBC1" 5 false with ROMBankPtr := 33 } ∧
    33 >>> 5 = 1 ∧ (1 : Nat) ≠ 9 := by
  refine ⟨?_, by decide, by decide⟩
  rw [SetMemory8_command _ _ _ _ _ (by decide),
    controllerCommand_mbc1_upper _ _ _ rfl rfl (by decide) (by decide),
    switchROMBank_class _ _ (by decide) (by decide)]
  rfl

/-! ## MBC3: ROM bank select -/

/-- C11: for an MBC3 cartridge of size class `c` in 1..6, every written value `v` and `a`
in `[0x2000,0x4000)`, the write computes the candidate `p = v & 0x7f` with 0 coerced to 1
and returns with the ROM pointer set to `p` when `p < 2^(c+1)` and with the state as it
was otherwise; the candidate is never 0, so the resulting pointer is not 0 when the
pointer before the write was not 0. -/
theorem mbc3_rom_select (env : Env σ ρ) (fuel : Nat) (cpu : CPU σ ρ) (a v : Nat)
    (hm : cpu.Cartridge.MBC = "MBC3")
    (h1 : 1 ≤ cpu.Cartridge.ROMSize) (h6 : cpu.Cartridge.ROMSize ≤ 6)
    (ha : 0x2000 ≤ a ∧ a < 0x4000) :
    SetMemory8 env (fuel + 1) cpu a v =
      .done (if (if v &&& 0x7f = 0 then 1 else v &&& 0x7f) < 2 ^ (cpu.Cartridge.ROMSize + 1) then
        { cpu with ROMBankPtr := if v &&& 0x7f = 0 then 1 else v &&& 0x7f } else cpu) ∧
    (if v &&& 0x7f = 0 then 1 else v &&& 0x7f) ≠ 0 ∧
    (cpu.ROMBankPtr ≠ 0 → ∀ cpu1, SetMemory8 env (fuel + 1) cpu a v = .done cpu1 →
      cpu1.ROMBankPtr ≠ 0) := by
  have hcmd : SetMemory8 env (fuel + 1) cpu a v =
      .done (if (if v &&& 0x7f = 0 then 1 else v &&& 0x7f) < 2 ^ (cpu.Cartridge.ROMSize + 1) then
        { cpu with ROMBankPtr := if v &&& 0x7f = 0 then 1 else v &&& 0x7f } else cpu) := by
    rw [SetMemory8_command env fuel cpu a v (by omega),
      controllerCommand_mbc3_select cpu a v hm ha.1 ha.2, switchROMBank_class cpu _ h1 h6]
  have hne : (if v &&& 0x7f = 0 then 1 else v &&& 0x7f) ≠ 0 := by
    split_ifs with h0
    · decide
    · exact h0
  refine ⟨hcmd, hne, fun hp cpu1 hres => ?_⟩
  rw [hcmd] at hres
  injection hres with hres
  subst hres
  by_cases hacc : (if v &&& 0x7f = 0 then 1 else v &&& 0x7f) < 2 ^ (cpu.Cartridge.ROMSize + 1)
  · rw [if_pos hacc]
    exact hne
  · rw [if_neg hacc]
    exact hp

/-- Instance of C11: MBC3, size class 2, value `0x80` (candidate 0, coerced to 1) written
to `0x3000` from ROM pointer 5. -/
theorem mbc3_rom_select_witness :
    SetMemory8 sampleEnv 1 { sampleCPU "MBC3" 2 false with ROMBankPtr := 5 } 0x3000 0x80
      = .done { sampleCPU "MBC3" 2 false with ROMBankPtr := 1 } :=
  (mbc3_rom_select sampleEnv 0 { sampleCPU "MBC3" 2 false with ROMBankPtr := 5 } 0x3000 0x80 rfl
    (by decide) (by decide) (by decide)).1

/-! ## The data half of a write as a pure state transformer -/

theorem hdma_length_bound (h : Nat) : ((h &&& 0x7f) + 1) * 16 ≤ 2048 := by
  rw [and_0x7f]
  omega

theorem hdmaTransfer_plain (env : Env σ ρ) (hv : env.io.valid) (fuel : Nat) (cpu : CPU σ ρ) :
    hdmaTransfer env (SetMemory8 env (fuel + 1)) cpu = .done (hdmaPure env cpu) := by
  obtain ⟨hto1, hto2⟩ := hdmaTo_bounds env cpu
  have hlen := hdma_length_bound (FetchMemory8 env cpu env.io.HDMA5IO)
  have hloop : copyLoop env (SetMemory8 env (fuel + 1)) (hdmaFrom env cpu) (hdmaTo env cpu)
      (((FetchMemory8 env cpu env.io.HDMA5IO &&& 0x7f) + 1) * 16) 0 cpu
      = .done (copyPure env (hdmaFrom env cpu) (hdmaTo env cpu)
          (((FetchMemory8 env cpu env.io.HDMA5IO &&& 0x7f) + 1) * 16) 0 cpu) :=
    copyLoop_plain env hv fuel _ _ _ 0 _ (fun j _ h2 => by
      have : (hdmaTo env cpu + j) % 65536 = hdmaTo env cpu + j :=
        Nat.mod_eq_of_lt (by omega)
      omega)
  simp only [hdmaTransfer, hdmaPure, hloop, Outcome.andThen]
  split_ifs <;> rfl

theorem dmaLoop_plain (env : Env σ ρ) (hv : env.io.valid) (fuel : Nat) (cpu : CPU σ ρ)
    (start : Nat) :
    copyLoop env (SetMemory8 env (fuel + 1)) start 0xfe00 160 0 cpu
      = .done (copyPure env start 0xfe00 160 0 cpu) :=
  copyLoop_plain env hv fuel _ _ 160 0 _ (fun j _ h2 => by omega)

theorem ite_done (c : Prop) [Decidable c] (a b : CPU σ ρ) :
    (if c then Outcome.done a else Outcome.done b) = Outcome.done (if c then a else b) := by
  split_ifs <;> rfl

theorem done_andThen (a : CPU σ ρ) (k : CPU σ ρ → Outcome σ ρ) :
    (Outcome.done a).andThen k = k a := rfl

/-- With nesting budget 2 a write above `0x7fff` returns, in the state `writePure`. -/
theorem SetMemory8_upper (env : Env σ ρ) (hv : env.io.valid) (fuel : Nat) (cpu : CPU σ ρ)
    (addr value : Nat) (h : 0x7fff < addr) :
    SetMemory8 env (fuel + 2) cpu addr value = .done (writePure env cpu addr value) := by
  have hlow : ¬ addr ≤ 0x7fff := by omega
  rw [SetMemory8]
  simp only [hlow, if_false, dmaLoop_plain env hv fuel, hdmaTransfer_plain env hv fuel,
    done_andThen, ite_done, writePure]

/-- A write above `0x7fff` to an address other than the two DMA triggers needs no
nesting: it returns with budget 1, in the state `writePure`. -/
theorem SetMemory8_no_dma (env : Env σ ρ) (fuel : Nat) (cpu : CPU σ ρ) (addr value : Nat)
    (h : 0x7fff < addr) (hd : addr ≠ env.io.DMAIO) (hh : addr ≠ env.io.HDMA5IO) :
    SetMemory8 env (fuel + 1) cpu addr value = .done (writePure env cpu addr value) := by
  have hlow : ¬ addr ≤ 0x7fff := by omega
  rw [SetMemory8]
  simp only [hlow, if_false, hd, hh, done_andThen, ite_done, writePure]

/-! ## The clock register shim -/

theorem controllerCommand_mbc3_unmap (cpu : CPU σ ρ) (a v : Nat)
    (hm : cpu.Cartridge.MBC = "MBC3") (h1 : 0x4000 ≤ a) (h2 : a < 0x6000) (hv7 : v ≤ 0x07) :
    controllerCommand cpu a v =
      .done { cpu with RTC := { cpu.RTC with Mapped := 0 }, RAMBankPtr := v } := by
  have hne : ¬ ("MBC3" = "MBC1") := by decide
  have h3 : ¬ (0x2000 ≤ a ∧ a ≤ 0x3fff) := by omega
  have h4 : a ≤ 0x5fff := by omega
  unfold controllerCommand
  simp only [h3, h1, h4, hm, hne, hv7, and_self, if_true, if_false]

theorem storeRegion_rtc (env : Env σ ρ) (cpu : CPU σ ρ) (addr value : Nat)
    (h1 : 0xa000 ≤ addr) (h2 : addr < 0xc000) (hmap : cpu.RTC.Mapped ≠ 0) :
    storeRegion env cpu addr value =
      { cpu with RTC := { cpu.RTC with
          regs := env.rtcWrite cpu.RTC.regs (cpu.RTC.Mapped % 256) value } } := by
  have c1 : ¬ (0x8000 ≤ addr ∧ addr < 0xa000) := by omega
  simp only [storeRegion, c1, h1, h2, hmap, and_self, if_true, if_false]

theorem fetch_ext_ram (env : Env σ ρ) (cpu : CPU σ ρ) (x : Nat) (h1 : 0xa000 ≤ x)
    (h2 : x < 0xc000) (hmap : cpu.RTC.Mapped = 0) :
    FetchMemory8 env cpu x = cpu.RAMBank cpu.RAMBankPtr (x - 0xa000) := by
  have c1 : ¬ (0x4000 ≤ x ∧ x < 0x8000) := by omega
  have c2 : ¬ (0x8000 ≤ x ∧ x < 0xa000) := by omega
  simp only [FetchMemory8, c1, c2, h1, h2, hmap, and_self, if_true, if_false, ne_eq,
    not_true_eq_false]

/-- C12: on a valid port map, for every state with the clock mapped (selector not 0),
every `addr` in `[0xa000,0xc000)` and every value, the write returns with the clock
register file replaced by the clock unit's `Write` at the mapped selector and every other
field as before, so every byte of every external-RAM bank and the flat RAM array are
unchanged; and when an MBC3 command then unmaps the clock by selecting RAM bank `k`, a read
of any `x` in the window returns byte `x - 0xa000` of external-RAM bank `k` as it was
before the clock write. -/
theorem rtc_write_preserves_ram (env : Env σ ρ) (hv : env.io.valid) (fuel : Nat)
    (cpu : CPU σ ρ) (addr value : Nat) (hmap : cpu.RTC.Mapped ≠ 0)
    (ha : 0xa000 ≤ addr ∧ addr < 0xc000) :
    SetMemory8 env (fuel + 1) cpu addr value =
      .done { cpu with RTC := { cpu.RTC with
        regs := env.rtcWrite cpu.RTC.regs (cpu.RTC.Mapped % 256) value } } ∧
    (∀ cpu1, SetMemory8 env (fuel + 1) cpu addr value = .done cpu1 →
      cpu1.RAMBank = cpu.RAMBank ∧ cpu1.RAM = cpu.RAM ∧ cpu1.RTC.Mapped = cpu.RTC.Mapped ∧
      (cpu.Cartridge.MBC = "MBC3" → ∀ a k x, 0x4000 ≤ a ∧ a < 0x6000 → k ≤ 0x07 →
        0xa000 ≤ x ∧ x < 0xc000 →
        ∃ cpu2, SetMemory8 env (fuel + 1) cpu1 a k = .done cpu2 ∧
          FetchMemory8 env cpu2 x = cpu.RAMBank k (x - 0xa000))) := by
  have hw : SetMemory8 env (fuel + 1) cpu addr value =
      .done { cpu with RTC := { cpu.RTC with
        regs := env.rtcWrite cpu.RTC.regs (cpu.RTC.Mapped % 256) value } } := by
    rw [SetMemory8_plain env hv fuel cpu addr value (by omega) (by omega),
      storeRegion_rtc env cpu addr value ha.1 ha.2 hmap]
  refine ⟨hw, fun cpu1 h1 => ?_⟩
  rw [hw] at h1
  injection h1 with h1
  have hbank : cpu1.RAMBank = cpu.RAMBank := by rw [← h1]
  have hram : cpu1.RAM = cpu.RAM := by rw [← h1]
  have hsel : cpu1.RTC.Mapped = cpu.RTC.Mapped := by rw [← h1]
  have hmbc : cpu1.Cartridge.MBC = cpu.Cartridge.MBC := by rw [← h1]
  refine ⟨hbank, hram, hsel, fun hm a k x hak hk hx => ?_⟩
  have hu := controllerCommand_mbc3_unmap cpu1 a k (hmbc.trans hm) hak.1 hak.2 hk
  rw [← SetMemory8_command env fuel cpu1 a k (by omega)] at hu
  refine ⟨_, hu, ?_⟩
  rw [fetch_ext_ram env _ x hx.1 hx.2 rfl]
  show cpu1.RAMBank k (x - 0xa000) = cpu.RAMBank k (x - 0xa000)
  rw [hbank]

/-- Instance of C12: clock register 9 mapped, write of `0x5a` to `0xa010`. -/
theorem rtc_write_preserves_ram_witness :
    SetMemory8 sampleEnv 1
        { sampleCPU "MBC3" 5 false with
          RTC := { (sampleCPU "MBC3" 5 false).RTC with Mapped := 9 } } 0xa010 0x5a
      = .done { sampleCPU "MBC3" 5 false with
          RTC := { Mapped := 9,
                   regs := sampleEnv.rtcWrite (sampleCPU "MBC3" 5 false).RTC.regs (9 % 256) 0x5a } } :=
  (rtc_write_preserves_ram sampleEnv (by decide) 0
    { sampleCPU "MBC3" 5 false with
      RTC := { (sampleCPU "MBC3" 5 false).RTC with Mapped := 9 } } 0xa010 0x5a
    (by decide) (by decide)).1

/-! ## Where the video DMA stores its bytes -/

theorem copyLoop_congr (env : Env σ ρ) (w1 w2 : CPU σ ρ → Nat → Nat → Outcome σ ρ)
    (src dst : Nat) :
    ∀ (count i : Nat) (cpu : CPU σ ρ),
      (∀ j, i ≤ j → j < i + count → ∀ c v, w1 c ((dst + j) % 65536) v = w2 c ((dst + j) % 65536) v) →
      copyLoop env w1 src dst count i cpu = copyLoop env w2 src dst count i cpu
  | 0, _, _, _ => rfl
  | count + 1, i, cpu, h => by
    rw [copyLoop, copyLoop, h i (Nat.le_refl i) (by omega)]
    congr 1
    funext cpu1
    exact copyLoop_congr env w1 w2 src dst count (i + 1) cpu1
      (fun j h1 h2 => h j (by omega) (by omega))

theorem copyLoop_guard (env : Env σ ρ) (write : CPU σ ρ → Nat → Nat → Outcome σ ρ)
    (src dst lo hi count : Nat) (cpu : CPU σ ρ)
    (h : ∀ j, j < count → lo ≤ (dst + j) % 65536 ∧ (dst + j) % 65536 < hi) :
    copyLoop env (guardWrite lo hi write) src dst count 0 cpu
      = copyLoop env write src dst count 0 cpu :=
  copyLoop_congr env _ _ src dst count 0 cpu (fun j _ h2 c v => by
    have hj := h j (by omega)
    simp only [guardWrite, hj, and_self, if_true])

theorem hdmaTransfer_guard (env : Env σ ρ) (write : CPU σ ρ → Nat → Nat → Outcome σ ρ)
    (lo hi : Nat) (cpu : CPU σ ρ)
    (h : ∀ j, j < ((FetchMemory8 env cpu env.io.HDMA5IO &&& 0x7f) + 1) * 16 →
      lo ≤ (hdmaTo env cpu + j) % 65536 ∧ (hdmaTo env cpu + j) % 65536 < hi) :
    hdmaTransfer env (guardWrite lo hi write) cpu = hdmaTransfer env write cpu := by
  simp only [hdmaTransfer, copyLoop_guard env write _ _ lo hi _ cpu h]

/-- A byte loop whose destination range lies inside the video-RAM window changes nothing
but the video-RAM banks. -/
theorem copyPure_vram_frame (env : Env σ ρ) (src dst : Nat) (hd : 0x8000 ≤ dst) :
    ∀ (count i : Nat) (cpu : CPU σ ρ), dst + i + count ≤ 0xa000 →
      ∃ vb, copyPure env src dst count i cpu
        = { cpu with GPU := { cpu.GPU with VRAMBank := vb } }
  | 0, _, cpu, _ => ⟨cpu.GPU.VRAMBank, rfl⟩
  | count + 1, i, cpu, hb => by
    have hm : (dst + i) % 65536 = dst + i := Nat.mod_eq_of_lt (by omega)
    obtain ⟨vb, hvb⟩ := copyPure_vram_frame env src dst hd count (i + 1)
      (storeRegion env cpu ((dst + i) % 65536) (FetchMemory8 env cpu ((src + i) % 65536)))
      (by omega)
    refine ⟨vb, ?_⟩
    rw [copyPure, hvb, hm, storeRegion_vram env cpu _ _ (by omega) (by omega)]

theorem writePure_hdma (env : Env σ ρ) (hv : env.io.valid) (cpu : CPU σ ρ) (c : Nat)
    (hcgb : cpu.Cartridge.IsCGB = true) :
    writePure env cpu env.io.HDMA5IO c
      = hdmaPure env { cpu with RAM := setAt cpu.RAM env.io.HDMA5IO c } := by
  obtain ⟨hH, d1, d2, d3, d4, d5, d6, d7, d8, d9, d10, d11, d12⟩ := valid_HDMA5IO env.io hv
  have hs1 : ¬ (0xff10 ≤ env.io.HDMA5IO ∧ env.io.HDMA5IO ≤ 0xff26) := by omega
  have hs2 : ¬ (0xff30 ≤ env.io.HDMA5IO ∧ env.io.HDMA5IO ≤ 0xff3f) := by omega
  simp only [writePure, storeRegion_flat env cpu _ c (by omega : 0xe000 ≤ env.io.HDMA5IO), d3,
    if_false, if_true, registerEffects, hs1, hs2, d1, d2, d4, d5, d6, d7, hcgb, colourEffects,
    d8, d9, d10, d11, d12]

theorem hdmaPure_frame (env : Env σ ρ) (cpu : CPU σ ρ)
    (hfit : hdmaTo env cpu + ((FetchMemory8 env cpu env.io.HDMA5IO &&& 0x7f) + 1) * 16 ≤ 0xa000) :
    (hdmaPure env cpu).RAMBank = cpu.RAMBank ∧ (hdmaPure env cpu).RTC = cpu.RTC := by
  obtain ⟨hto1, -⟩ := hdmaTo_bounds env cpu
  obtain ⟨vb, hvb⟩ := copyPure_vram_frame env (hdmaFrom env cpu) (hdmaTo env cpu) hto1
    (((FetchMemory8 env cpu env.io.HDMA5IO &&& 0x7f) + 1) * 16) 0 cpu (by omega)
  simp only [hdmaPure, hvb]
  split_ifs <;> exact ⟨rfl, rfl⟩

/-- C13 (amended): in colour mode, on a valid port map, for every content of the four
source/destination registers and every control byte `c`: the assembled destination lies in
`[0x8000, 0x9ff0]`; each of the `n` copied bytes is written, by the byte write the copy
loop issues, at the address `dst + j` with `j < n`, which lies in `[0x8000, 0xa7f0)`
(dropping every byte write outside that range does not change the transfer); and when
`dst + n <= 0xa000` every copied byte is written inside the video-RAM window
`[0x8000, 0xa000)`, and the write to the trigger returns with every external-RAM bank and
the clock unit as they were. The statement speaks of the copied bytes only. -/
theorem hdma_destination (env : Env σ ρ) (hv : env.io.valid) (fuel : Nat) (cpu : CPU σ ρ)
    (c : Nat) (hcgb : cpu.Cartridge.IsCGB = true) :
    (0x8000 ≤ hdmaTo env cpu ∧ hdmaTo env cpu ≤ 0x9ff0) ∧
    (∀ (write : CPU σ ρ → Nat → Nat → Outcome σ ρ) (cpu0 : CPU σ ρ),
      hdmaTransfer env (guardWrite 0x8000 0xa7f0 write) cpu0 = hdmaTransfer env write cpu0) ∧
    (∀ (cpu0 : CPU σ ρ) (j : Nat),
      j < ((FetchMemory8 env cpu0 env.io.HDMA5IO &&& 0x7f) + 1) * 16 →
      (hdmaTo env cpu0 + j) % 65536 = hdmaTo env cpu0 + j ∧
      0x8000 ≤ hdmaTo env cpu0 + j ∧ hdmaTo env cpu0 + j < 0xa7f0) ∧
    (hdmaTo env cpu + hdmaLength c ≤ 0xa000 →
      (∀ write : CPU σ ρ → Nat → Nat → Outcome σ ρ,
        hdmaTransfer env (guardWrite 0x8000 0xa000 write)
            { cpu with RAM := setAt cpu.RAM env.io.HDMA5IO c }
          = hdmaTransfer env write { cpu with RAM := setAt cpu.RAM env.io.HDMA5IO c }) ∧
      ∃ cpu1, SetMemory8 env (fuel + 2) cpu env.io.HDMA5IO c = .done cpu1 ∧
        cpu1.RAMBank = cpu.RAMBank ∧ cpu1.RTC = cpu.RTC) := by
  obtain ⟨hH, -⟩ := valid_HDMA5IO env.io hv
  obtain ⟨-, hto⟩ := hdma_addresses_store env hv cpu c
  obtain ⟨-, -, -, -, f5⟩ :=
    fetch_HDMA_registers env hv { cpu with RAM := setAt cpu.RAM env.io.HDMA5IO c }
  have hval : FetchMemory8 env { cpu with RAM := setAt cpu.RAM env.io.HDMA5IO c }
      env.io.HDMA5IO = c := by
    rw [f5]; simp only [setAt, if_true]
  refine ⟨hdmaTo_bounds env cpu, fun write cpu0 => ?_, fun cpu0 j hj => ?_,
    fun hfit => ⟨fun write => ?_, ?_⟩⟩
  · apply hdmaTransfer_guard
    intro j hj
    obtain ⟨h1, h2⟩ := hdmaTo_bounds env cpu0
    have hlen := hdma_length_bound (FetchMemory8 env cpu0 env.io.HDMA5IO)
    have : (hdmaTo env cpu0 + j) % 65536 = hdmaTo env cpu0 + j := Nat.mod_eq_of_lt (by omega)
    omega
  · obtain ⟨h1, h2⟩ := hdmaTo_bounds env cpu0
    have hlen := hdma_length_bound (FetchMemory8 env cpu0 env.io.HDMA5IO)
    exact ⟨Nat.mod_eq_of_lt (by omega), by omega, by omega⟩
  · apply hdmaTransfer_guard
    intro j hj
    rw [hval] at hj
    rw [hto]
    obtain ⟨h1, h2⟩ := hdmaTo_bounds env cpu
    have hl : ((c &&& 0x7f) + 1) * 16 = hdmaLength c := rfl
    have : (hdmaTo env cpu + j) % 65536 = hdmaTo env cpu + j := Nat.mod_eq_of_lt (by omega)
    omega
  · have hfr := hdmaPure_frame env { cpu with RAM := setAt cpu.RAM env.io.HDMA5IO c } (by
      rw [hval, hto]; exact hfit)
    refine ⟨_, SetMemory8_upper env hv fuel cpu _ c (by omega), ?_, ?_⟩
    · rw [writePure_hdma env hv cpu c hcgb]; exact hfr.1
    · rw [writePure_hdma env hv cpu c hcgb]; exact hfr.2

/-- Instance of C13 (amended): destination `0x9450`, control byte 0 (16 bytes). -/
theorem hdma_destination_witness :
    ∃ cpu1, SetMemory8 sampleEnv 2 (sampleHDMA 0x52 0x53 0x54 0x55) 0xff55 0 = .done cpu1 ∧
      cpu1.RAMBank = (sampleHDMA 0x52 0x53 0x54 0x55).RAMBank ∧
      cpu1.RTC = (sampleHDMA 0x52 0x53 0x54 0x55).RTC :=
  ((hdma_destination sampleEnv (by decide) 0 (sampleHDMA 0x52 0x53 0x54 0x55) 0 rfl).2.2.2
    (by decide)).2

/-- C13 as stated fails: with destination `0x9ff0` and control byte 1 (32 bytes, mode 0)
the second half of the transfer lands at `0xa000..0xa00f`: byte 16 of the source is stored
in external-RAM bank 0 at offset 0, which held 3 and holds `0x61` afterwards. -/
theorem hdma_destination_counterexample :
    SetMemory8 sampleEnv 2 (sampleHDMA 0x52 0x53 0x1f 0xf0) 0xff55 1
      = .done (writePure sampleEnv (sampleHDMA 0x52 0x53 0x1f 0xf0) 0xff55 1) ∧
    hdmaTo sampleEnv (sampleHDMA 0x52 0x53 0x1f 0xf0) + 16 = 0xa000 ∧
    (sampleHDMA 0x52 0x53 0x1f 0xf0).RAMBank 0 0 = 3 ∧
    (writePure sampleEnv (sampleHDMA 0x52 0x53 0x1f 0xf0) 0xff55 1).RAMBank 0 0 = 0x61 := by
  refine ⟨SetMemory8_upper sampleEnv (by decide) 0 _ _ _ (by decide), by decide, by decide, ?_⟩
  decide

/-! ## Bank-select and LCD registers -/

theorem valid_SVBKIO (io : IOPorts) (hv : io.valid) :
    (0xff40 ≤ io.SVBKIO ∧ io.SVBKIO ≤ 0xffff) ∧
    io.SVBKIO ≠ io.LCDCIO ∧ io.SVBKIO ≠ io.LCDSTATIO ∧ io.SVBKIO ≠ io.DMAIO ∧
    io.SVBKIO ≠ io.BGPIO ∧ io.SVBKIO ≠ io.OBP0IO ∧ io.SVBKIO ≠ io.OBP1IO ∧
    io.SVBKIO ≠ io.VBKIO ∧ io.SVBKIO ≠ io.HDMA5IO ∧ io.SVBKIO ≠ io.BCPSIO ∧
    io.SVBKIO ≠ io.BCPDIO ∧ io.SVBKIO ≠ io.OCPSIO ∧ io.SVBKIO ≠ io.OCPDIO :=
  ⟨ports_bounds io hv 16, ports_ne io hv 16 0 (by decide), ports_ne io hv 16 1 (by decide),
   ports_ne io hv 16 2 (by decide), ports_ne io hv 16 3 (by decide),
   ports_ne io hv 16 4 (by decide), ports_ne io hv 16 5 (by decide),
   ports_ne io hv 16 6 (by decide), ports_ne io hv 16 11 (by decide),
   ports_ne io hv 16 12 (by decide), ports_ne io hv 16 13 (by decide),
   ports_ne io hv 16 14 (by decide), ports_ne io hv 16 15 (by decide)⟩

theorem valid_LCDCIO (io : IOPorts) (hv : io.valid) :
    (0xff40 ≤ io.LCDCIO ∧ io.LCDCIO ≤ 0xffff) ∧
    io.LCDCIO ≠ io.LCDSTATIO ∧ io.LCDCIO ≠ io.DMAIO ∧ io.LCDCIO ≠ io.BGPIO ∧
    io.LCDCIO ≠ io.OBP0IO ∧ io.LCDCIO ≠ io.OBP1IO ∧ io.LCDCIO ≠ io.VBKIO ∧
    io.LCDCIO ≠ io.HDMA5IO ∧ io.LCDCIO ≠ io.BCPSIO ∧ io.LCDCIO ≠ io.BCPDIO ∧
    io.LCDCIO ≠ io.OCPSIO ∧ io.LCDCIO ≠ io.OCPDIO ∧ io.LCDCIO ≠ io.SVBKIO :=
  ⟨ports_bounds io hv 0, ports_ne io hv 0 1 (by decide), ports_ne io hv 0 2 (by decide),
   ports_ne io hv 0 3 (by decide), ports_ne io hv 0 4 (by decide),
   ports_ne io hv 0 5 (by decide), ports_ne io hv 0 6 (by decide),
   ports_ne io hv 0 11 (by decide), ports_ne io hv 0 12 (by decide),
   ports_ne io hv 0 13 (by decide), ports_ne io hv 0 14 (by decide),
   ports_ne io hv 0 15 (by decide), ports_ne io hv 0 16 (by decide)⟩

theorem valid_LCDSTATIO (io : IOPorts) (hv : io.valid) :
    (0xff40 ≤ io.LCDSTATIO ∧ io.LCDSTATIO ≤ 0xffff) ∧
    io.LCDSTATIO ≠ io.LCDCIO ∧ io.LCDSTATIO ≠ io.DMAIO ∧ io.LCDSTATIO ≠ io.BGPIO ∧
    io.LCDSTATIO ≠ io.OBP0IO ∧ io.LCDSTATIO ≠ io.OBP1IO ∧ io.LCDSTATIO ≠ io.VBKIO ∧
    io.LCDSTATIO ≠ io.HDMA5IO ∧ io.LCDSTATIO ≠ io.BCPSIO ∧ io.LCDSTATIO ≠ io.BCPDIO ∧
    io.LCDSTATIO ≠ io.OCPSIO ∧ io.LCDSTATIO ≠ io.OCPDIO ∧ io.LCDSTATIO ≠ io.SVBKIO :=
  ⟨ports_bounds io hv 1, ports_ne io hv 1 0 (by decide), ports_ne io hv 1 2 (by decide),
   ports_ne io hv 1 3 (by decide), ports_ne io hv 1 4 (by decide),
   ports_ne io hv 1 5 (by decide), ports_ne io hv 1 6 (by decide),
   ports_ne io hv 1 11 (by decide), ports_ne io hv 1 12 (by decide),
   ports_ne io hv 1 13 (by decide), ports_ne io hv 1 14 (by decide),
   ports_ne io hv 1 15 (by decide), ports_ne io hv 1 16 (by decide)⟩

/-- C14: on a valid port map, in colour mode a write of `v` to the working-RAM bank-select
register returns with `v` stored in the register's flat-RAM cell and the working-RAM bank
pointer set to `v & 0x07` with 0 coerced to 1, so the pointer is in 1..7 afterwards and
writing 0 yields bank 1; when the cartridge is not colour-mode the same write stores the
byte and leaves the working-RAM bank pointer unchanged. -/
theorem wram_bank_select (env : Env σ ρ) (hv : env.io.valid) (fuel : Nat) (cpu : CPU σ ρ)
    (v : Nat) :
    (cpu.Cartridge.IsCGB = true →
      SetMemory8 env (fuel + 1) cpu env.io.SVBKIO v =
        .done { cpu with
          RAM := setAt cpu.RAM env.io.SVBKIO v
          WRAMBankPtr := if v &&& 0x07 = 0 then 1 else v &&& 0x07 }) ∧
    (1 ≤ (if v &&& 0x07 = 0 then 1 else v &&& 0x07) ∧
      (if v &&& 0x07 = 0 then 1 else v &&& 0x07) ≤ 7) ∧
    (if 0 &&& 0x07 = 0 then 1 else 0 &&& 0x07) = 1 ∧
    (cpu.Cartridge.IsCGB = false →
      SetMemory8 env (fuel + 1) cpu env.io.SVBKIO v =
        .done { cpu with RAM := setAt cpu.RAM env.io.SVBKIO v }) := by
  obtain ⟨hS, d0, d1, d2, d3, d4, d5, d6, d11, d12, d13, d14, d15⟩ := valid_SVBKIO env.io hv
  have hs1 : ¬ (0xff10 ≤ env.io.SVBKIO ∧ env.io.SVBKIO ≤ 0xff26) := by omega
  have hs2 : ¬ (0xff30 ≤ env.io.SVBKIO ∧ env.io.SVBKIO ≤ 0xff3f) := by omega
  have hw := SetMemory8_no_dma env fuel cpu env.io.SVBKIO v (by omega) d2 d11
  have hf : (false = true) = False := by simp
  refine ⟨fun hcgb => ?_, ?_, by decide, fun hcgb => ?_⟩
  · rw [hw]
    simp only [writePure, storeRegion_flat env cpu _ v (by omega : 0xe000 ≤ env.io.SVBKIO), d2,
      if_false, if_true, registerEffects, hs1, hs2, d0, d1, d3, d4, d5, d6, d11, hcgb,
      colourEffects, d12, d13, d14, d15]
  · have hle : v &&& 0x07 ≤ 0x07 := Nat.and_le_right
    split_ifs with h0
    · exact ⟨Nat.le_refl 1, by decide⟩
    · exact ⟨by omega, hle⟩
  · rw [hw]
    simp only [writePure, storeRegion_flat env cpu _ v (by omega : 0xe000 ≤ env.io.SVBKIO), d2,
      if_false, registerEffects, hs1, hs2, d0, d1, d3, d4, d5, hcgb, hf]

/-- Instance of C14: colour mode, value `0x08` (low three bits 0) written to `0xff70`. -/
theorem wram_bank_select_witness :
    SetMemory8 sampleEnv 1 (sampleCPU "MBC1" 5 true) 0xff70 0x08
      = .done { sampleCPU "MBC1" 5 true with
          RAM := setAt (sampleCPU "MBC1" 5 true).RAM 0xff70 0x08
          WRAMBankPtr := 1 } :=
  (wram_bank_select sampleEnv (by decide) 0 (sampleCPU "MBC1" 5 true) 0x08).1 rfl

/-- C15: on a valid port map, for every state and every value `v`, a write of `v` to the
LCD-control address returns and a read of that address afterwards returns `v`, and
likewise for the LCD-status address; in every state the value read at either address is
the graphics unit's register field, whatever the flat RAM array holds. -/
theorem lcd_register_round_trip (env : Env σ ρ) (hv : env.io.valid) (fuel : Nat)
    (cpu : CPU σ ρ) (v : Nat) :
    (∃ cpu1, SetMemory8 env (fuel + 1) cpu env.io.LCDCIO v = .done cpu1 ∧
      FetchMemory8 env cpu1 env.io.LCDCIO = v ∧ cpu1.GPU.LCDC = v) ∧
    (∃ cpu1, SetMemory8 env (fuel + 1) cpu env.io.LCDSTATIO v = .done cpu1 ∧
      FetchMemory8 env cpu1 env.io.LCDSTATIO = v ∧ cpu1.GPU.LCDSTAT = v) ∧
    (∀ cpu0 : CPU σ ρ, FetchMemory8 env cpu0 env.io.LCDCIO = cpu0.GPU.LCDC ∧
      FetchMemory8 env cpu0 env.io.LCDSTATIO = cpu0.GPU.LCDSTAT) := by
  obtain ⟨hC, c1, c2, c3, c4, c5, c6, c11, c12, c13, c14, c15, c16⟩ := valid_LCDCIO env.io hv
  obtain ⟨hT, t0, t2, t3, t4, t5, t6, t11, t12, t13, t14, t15, t16⟩ :=
    valid_LCDSTATIO env.io hv
  have hread : ∀ cpu0 : CPU σ ρ, FetchMemory8 env cpu0 env.io.LCDCIO = cpu0.GPU.LCDC ∧
      FetchMemory8 env cpu0 env.io.LCDSTATIO = cpu0.GPU.LCDSTAT := by
    intro cpu0
    have a1 : ¬ (0x4000 ≤ env.io.LCDCIO ∧ env.io.LCDCIO < 0x8000) := by omega
    have a2 : ¬ (0x8000 ≤ env.io.LCDCIO ∧ env.io.LCDCIO < 0xa000) := by omega
    have a3 : ¬ (0xa000 ≤ env.io.LCDCIO ∧ env.io.LCDCIO < 0xc000) := by omega
    have a4 : ¬ (cpu0.WRAMBankPtr > 1 ∧ 0xd000 ≤ env.io.LCDCIO ∧ env.io.LCDCIO < 0xe000) := by
      omega
    have a5 : ¬ ((0xff10 ≤ env.io.LCDCIO ∧ env.io.LCDCIO ≤ 0xff26) ∨
        (0xff30 ≤ env.io.LCDCIO ∧ env.io.LCDCIO ≤ 0xff3f)) := by omega
    have b1 : ¬ (0x4000 ≤ env.io.LCDSTATIO ∧ env.io.LCDSTATIO < 0x8000) := by omega
    have b2 : ¬ (0x8000 ≤ env.io.LCDSTATIO ∧ env.io.LCDSTATIO < 0xa000) := by omega
    have b3 : ¬ (0xa000 ≤ env.io.LCDSTATIO ∧ env.io.LCDSTATIO < 0xc000) := by omega
    have b4 : ¬ (cpu0.WRAMBankPtr > 1 ∧ 0xd000 ≤ env.io.LCDSTATIO ∧
        env.io.LCDSTATIO < 0xe000) := by omega
    have b5 : ¬ ((0xff10 ≤ env.io.LCDSTATIO ∧ env.io.LCDSTATIO ≤ 0xff26) ∨
        (0xff30 ≤ env.io.LCDSTATIO ∧ env.io.LCDSTATIO ≤ 0xff3f)) := by omega
    constructor
    · simp only [FetchMemory8, a1, a2, a3, a4, a5, if_false, if_true]
    · simp only [FetchMemory8, b1, b2, b3, b4, b5, t0, if_false, if_true]
  have hgC : (writePure env cpu env.io.LCDCIO v).GPU.LCDC = v := by
    have hs1 : ¬ (0xff10 ≤ env.io.LCDCIO ∧ env.io.LCDCIO ≤ 0xff26) := by omega
    have hs2 : ¬ (0xff30 ≤ env.io.LCDCIO ∧ env.io.LCDCIO ≤ 0xff3f) := by omega
    simp only [writePure, storeRegion_flat env cpu _ v (by omega : 0xe000 ≤ env.io.LCDCIO), c2,
      if_false, if_true, registerEffects, hs1, hs2, c1, c3, c4, c5, c6, c11, colourEffects,
      c12, c13, c14, c15, c16]
    split_ifs <;> rfl
  have hgT : (writePure env cpu env.io.LCDSTATIO v).GPU.LCDSTAT = v := by
    have hs1 : ¬ (0xff10 ≤ env.io.LCDSTATIO ∧ env.io.LCDSTATIO ≤ 0xff26) := by omega
    have hs2 : ¬ (0xff30 ≤ env.io.LCDSTATIO ∧ env.io.LCDSTATIO ≤ 0xff3f) := by omega
    simp only [writePure, storeRegion_flat env cpu _ v (by omega : 0xe000 ≤ env.io.LCDSTATIO),
      t2, if_false, if_true, registerEffects, hs1, hs2, t0, t3, t4, t5, t6, t11, colourEffects,
      t12, t13, t14, t15, t16]
    split_ifs <;> rfl
  refine ⟨⟨_, SetMemory8_no_dma env fuel cpu _ v (by omega) c2 c11, ?_, hgC⟩,
    ⟨_, SetMemory8_no_dma env fuel cpu _ v (by omega) t2 t11, ?_, hgT⟩, hread⟩
  · rw [(hread _).1, hgC]
  · rw [(hread _).2, hgT]

/-- Instance of C15: value `0x91` written to the LCD-control address `0xff40`. -/
theorem lcd_register_round_trip_witness :
    ∃ cpu1, SetMemory8 sampleEnv 1 (sampleCPU "MBC1" 5 false) 0xff40 0x91 = .done cpu1 ∧
      FetchMemory8 sampleEnv cpu1 0xff40 = 0x91 ∧ cpu1.GPU.LCDC = 0x91 :=
  (lcd_register_round_trip sampleEnv (by decide) 0 (sampleCPU "MBC1" 5 false) 0x91).1

/-! ## Writes into the ROM address range -/

theorem switchROMBank_frame (cpu : CPU σ ρ) (p : Nat) (h : cpu.Cartridge.ROMSize ≤ 6) :
    ∃ r, switchROMBank cpu p = .done { cpu with ROMBankPtr := r } := by
  by_cases h0 : cpu.Cartridge.ROMSize = 0
  · exact ⟨cpu.ROMBankPtr, switchROMBank_class_zero cpu p h0⟩
  · rw [switchROMBank_class cpu p (by omega) h]
    by_cases hp : p < 2 ^ (cpu.Cartridge.ROMSize + 1)
    · exact ⟨p, by rw [if_pos hp]⟩
    · exact ⟨cpu.ROMBankPtr, by rw [if_neg hp]⟩

theorem switchROMBank_frame_all (cpu : CPU σ ρ) (p : Nat) (h : cpu.Cartridge.ROMSize ≤ 6) :
    ∃ r q m k, switchROMBank cpu p =
      .done { cpu with
        ROMBankPtr := r, RAMBankPtr := q, bankMode := m
        RTC := { cpu.RTC with Mapped := k } } := by
  obtain ⟨r, hr⟩ := switchROMBank_frame cpu p h
  exact ⟨r, cpu.RAMBankPtr, cpu.bankMode, cpu.RTC.Mapped, hr⟩

theorem controllerCommand_frame (cpu : CPU σ ρ) (addr value : Nat)
    (h : cpu.Cartridge.ROMSize ≤ 6) :
    ∃ r q m k, controllerCommand cpu addr value =
      .done { cpu with
        ROMBankPtr := r, RAMBankPtr := q, bankMode := m
        RTC := { cpu.RTC with Mapped := k } } := by
  unfold controllerCommand
  split_ifs
  all_goals first
    | exact ⟨cpu.ROMBankPtr, cpu.RAMBankPtr, cpu.bankMode, cpu.RTC.Mapped, rfl⟩
    | exact ⟨cpu.ROMBankPtr, value, cpu.bankMode, cpu.RTC.Mapped, rfl⟩
    | exact ⟨cpu.ROMBankPtr, value, cpu.bankMode, 0, rfl⟩
    | exact ⟨cpu.ROMBankPtr, cpu.RAMBankPtr, cpu.bankMode, value, rfl⟩
    | exact ⟨cpu.ROMBankPtr, cpu.RAMBankPtr, value, cpu.RTC.Mapped, rfl⟩
    | exact switchROMBank_frame_all cpu _ h

theorem controllerCommand_idle (cpu : CPU σ ρ) (addr value : Nat)
    (h : (cpu.Cartridge.MBC ≠ "MBC1" ∧ cpu.Cartridge.MBC ≠ "MBC3") ∨ addr < 0x2000) :
    controllerCommand cpu addr value = .done cpu := by
  unfold controllerCommand
  rcases h with ⟨h1, h3⟩ | h
  · simp only [h1, h3, if_false, ite_self]
  · have a1 : ¬ (0x2000 ≤ addr ∧ addr ≤ 0x3fff) := by omega
    have a2 : ¬ (0x4000 ≤ addr ∧ addr ≤ 0x5fff) := by omega
    have a3 : ¬ (0x6000 ≤ addr ∧ addr ≤ 0x7fff) := by omega
    simp only [a1, a2, a3, if_false]

/-- C16: for every state with a recognised size class, every `addr <= 0x7fff` and every
value, the write returns with the flat RAM array, all ROM, external-RAM, working-RAM and
video-RAM banks, the video- and working-RAM bank pointers, the cycle counter, the graphics
and sound units and the clock register file as they were; only the ROM pointer, the
external-RAM pointer, the bank mode and the clock selector may differ; and for a
controller other than MBC1 or MBC3, or for `addr < 0x2000`, the whole state is unchanged. -/
theorem rom_range_write_frame (env : Env σ ρ) (fuel : Nat) (cpu : CPU σ ρ)
    (addr value : Nat) (hsz : cpu.Cartridge.ROMSize ≤ 6) (ha : addr ≤ 0x7fff) :
    (∃ r q m k, SetMemory8 env (fuel + 1) cpu addr value =
      .done { cpu with
        ROMBankPtr := r, RAMBankPtr := q, bankMode := m
        RTC := { cpu.RTC with Mapped := k } }) ∧
    ((cpu.Cartridge.MBC ≠ "MBC1" ∧ cpu.Cartridge.MBC ≠ "MBC3") ∨ addr < 0x2000 →
      SetMemory8 env (fuel + 1) cpu addr value = .done cpu) := by
  rw [SetMemory8_command env fuel cpu addr value ha]
  exact ⟨controllerCommand_frame cpu addr value hsz, controllerCommand_idle cpu addr value⟩

/-- Instance of C16: MBC1, size class 5, the mode-select write of 1 to `0x6000` changes
the bank mode only. -/
theorem rom_range_write_frame_witness :
    ∃ r q m k, SetMemory8 sampleEnv 1 (sampleCPU "MBC1" 5 false) 0x6000 1 =
      .done { sampleCPU "MBC1" 5 false with
        ROMBankPtr := r, RAMBankPtr := q, bankMode := m
        RTC := { (sampleCPU "MBC1" 5 false).RTC with Mapped := k } } :=
  (rom_range_write_frame sampleEnv 0 (sampleCPU "MBC1" 5 false) 0x6000 1 (by decide)
    (by decide)).1

/-! ## ROM storage and the flat array below `0x8000` -/

/-- C17, the code at the failing input: in colour mode the mode-1 control byte `0x80`
written to the video-DMA trigger `0xff55` sets flat-array cell `0x80` to `0xff`, so the
read of address `0x0080`, which returned `0x81` before the write, returns `0xff` after. -/
theorem rom_region_failing_input :
    SetMemory8 sampleEnv 2 (sampleHDMA 0x52 0x53 0x54 0x55) 0xff55 0x80
      = .done (writePure sampleEnv (sampleHDMA 0x52 0x53 0x54 0x55) 0xff55 0x80) ∧
    FetchMemory8 sampleEnv (sampleHDMA 0x52 0x53 0x54 0x55) 0x0080 = 0x81 ∧
    FetchMemory8 sampleEnv (writePure sampleEnv (sampleHDMA 0x52 0x53 0x54 0x55) 0xff55 0x80)
      0x0080 = 0xff := by
  refine ⟨SetMemory8_upper sampleEnv (by decide) 0 _ _ _ (by decide), by decide, ?_⟩
  decide

/-! ## MBC1: reaching ROM pointer 0 -/

/-- C18, the code at the failing input: MBC1, size class 5, bank mode 0, ROM pointer 1;
the write of `0x20` to `0x2000` sets the pointer to 32, and the write of 0 to `0x4000`
then sets it to 0. -/
theorem mbc1_bank_zero_failing_input :
    (sampleCPU "MBC1" 5 false).ROMBankPtr = 1 ∧
    SetMemory8 sampleEnv 1 (sampleCPU "MBC1" 5 false) 0x2000 0x20
      = .done { sampleCPU "MBC1" 5 false with ROMBankPtr := 32 } ∧
    runWrites sampleEnv 1 (sampleCPU "MBC1" 5 false) [(0x2000, 0x20), (0x4000, 0)]
      = .done { sampleCPU "MBC1" 5 false with ROMBankPtr := 0 } := by
  have h1 : SetMemory8 sampleEnv 1 (sampleCPU "MBC1" 5 false) 0x2000 0x20
      = .done { sampleCPU "MBC1" 5 false with ROMBankPtr := 32 } := by
    rw [SetMemory8_command _ _ _ _ _ (by decide),
      controllerCommand_mbc1_select _ _ _ rfl (by decide) (by decide),
      switchROMBank_class _ _ (by decide) (by decide)]
    rfl
  have h2 : SetMemory8 sampleEnv 1 { sampleCPU "MBC1" 5 false with ROMBankPtr := 32 } 0x4000 0
      = .done { sampleCPU "MBC1" 5 false with ROMBankPtr := 0 } := by
    rw [SetMemory8_command _ _ _ _ _ (by decide),
      controllerCommand_mbc1_upper _ _ _ rfl rfl (by decide) (by decide),
      switchROMBank_class _ _ (by decide) (by decide)]
    rfl
  refine ⟨rfl, h1, ?_⟩
  simp only [runWrites, h1, h2, done_andThen]

/-! ## Read after write on the data regions -/

theorem fetch_store_same (env : Env σ ρ) (hv : env.io.valid) (cpu : CPU σ ρ) (addr v : Nat)
    (hr : dataRegion cpu addr) :
    FetchMemory8 env (storeRegion env cpu addr v) addr = v := by
  obtain ⟨p1, p2, -, -, -, -, -, -, -, -, -, -, -, p14, -, p16, -⟩ :=
    valid_ports_high env.io hv addr (by unfold dataRegion at hr; omega)
  unfold dataRegion at hr
  unfold storeRegion
  split_ifs with h1 h2 h3 h4
  · have c1 : ¬ (0x4000 ≤ addr ∧ addr < 0x8000) := by omega
    simp only [FetchMemory8, c1, h1, and_self, if_true, if_false, setBank]
  · have c1 : ¬ (0x4000 ≤ addr ∧ addr < 0x8000) := by omega
    simp only [FetchMemory8, c1, h1, h2, h3, and_self, if_true, if_false, setBank, ne_eq,
      not_true_eq_false]
  · exfalso; omega
  · have c1 : ¬ (0x4000 ≤ addr ∧ addr < 0x8000) := by omega
    simp only [FetchMemory8, c1, h1, h2, h4, and_self, if_true, if_false, setBank]
  · have c1 : ¬ (0x4000 ≤ addr ∧ addr < 0x8000) := by omega
    have c5 : ¬ ((0xff10 ≤ addr ∧ addr ≤ 0xff26) ∨ (0xff30 ≤ addr ∧ addr ≤ 0xff3f)) := by
      omega
    simp only [FetchMemory8, c1, h1, h2, h4, c5, p1, p2, p14, p16, if_true, if_false, setAt]

theorem fetch_store_other (env : Env σ ρ) (cpu : CPU σ ρ) (addr v x : Nat)
    (hr : dataRegion cpu addr) (hx : x ≠ addr) :
    FetchMemory8 env (storeRegion env cpu addr v) x = FetchMemory8 env cpu x := by
  unfold dataRegion at hr
  unfold storeRegion
  split_ifs with h1 h2 h3 h4
  · apply fetch_vram_update
    intro hx1 hx2
    have hoff : ¬ (x - 0x8000 = addr - 0x8000) := by omega
    simp only [setBank, hoff, and_false, if_false]
  · by_cases hw : 0xa000 ≤ x ∧ x < 0xc000
    · have c1 : ¬ (0x4000 ≤ x ∧ x < 0x8000) := by omega
      have c2 : ¬ (0x8000 ≤ x ∧ x < 0xa000) := by omega
      have hoff : ¬ (x - 0xa000 = addr - 0xa000) := by omega
      simp only [FetchMemory8, c1, c2, hw, and_self, if_true, if_false, setBank, hoff,
        and_false]
    · simp only [FetchMemory8, hw, if_false]
  · exfalso; omega
  · by_cases hw : cpu.WRAMBankPtr > 1 ∧ 0xd000 ≤ x ∧ x < 0xe000
    · have c1 : ¬ (0x4000 ≤ x ∧ x < 0x8000) := by omega
      have c2 : ¬ (0x8000 ≤ x ∧ x < 0xa000) := by omega
      have c3 : ¬ (0xa000 ≤ x ∧ x < 0xc000) := by omega
      have hoff : ¬ (x - 0xd000 = addr - 0xd000) := by omega
      simp only [FetchMemory8, c1, c2, c3, hw, and_self, if_true, if_false, setBank, hoff,
        and_false]
    · simp only [FetchMemory8, hw, if_false]
  · apply fetch_flat_update_ne
    simp only [setAt, hx, if_false]

/-- C19: on a valid port map, for every state, every value `v` and every `addr` in the
video-RAM window, in the external-RAM window while the clock is unmapped, or in
`[0xc000, 0xff00)`: the write returns with nothing but the raw store done, a read of
`addr` afterwards returns `v`, and a read of every other address returns what it returned
before the write. -/
theorem read_after_write (env : Env σ ρ) (hv : env.io.valid) (fuel : Nat) (cpu : CPU σ ρ)
    (addr v : Nat) (hr : dataRegion cpu addr) :
    SetMemory8 env (fuel + 1) cpu addr v = .done (storeRegion env cpu addr v) ∧
    FetchMemory8 env (storeRegion env cpu addr v) addr = v ∧
    (∀ x, x ≠ addr →
      FetchMemory8 env (storeRegion env cpu addr v) x = FetchMemory8 env cpu x) :=
  ⟨SetMemory8_plain env hv fuel cpu addr v (by unfold dataRegion at hr; omega)
      (by unfold dataRegion at hr; omega),
    fetch_store_same env hv cpu addr v hr,
    fun x hx => fetch_store_other env cpu addr v x hr hx⟩

/-- Instance of C19: working-RAM bank 3 active, `0x5a` written to `0xd123`. -/
theorem read_after_write_witness :
    SetMemory8 sampleEnv 1 { sampleCPU "MBC1" 5 true with WRAMBankPtr := 3 } 0xd123 0x5a
      = .done (storeRegion sampleEnv { sampleCPU "MBC1" 5 true with WRAMBankPtr := 3 }
          0xd123 0x5a) ∧
    FetchMemory8 sampleEnv
      (storeRegion sampleEnv { sampleCPU "MBC1" 5 true with WRAMBankPtr := 3 } 0xd123 0x5a)
      0xd123 = 0x5a :=
  ⟨(read_after_write sampleEnv (by decide) 0 { sampleCPU "MBC1" 5 true with WRAMBankPtr := 3 }
      0xd123 0x5a (Or.inr (Or.inr (by decide)))).1,
   (read_after_write sampleEnv (by decide) 0 { sampleCPU "MBC1" 5 true with WRAMBankPtr := 3 }
      0xd123 0x5a (Or.inr (Or.inr (by decide)))).2.1⟩

/-! ## Termination and nesting depth -/

/-- C20: on a valid port map, for every state with a recognised size class, every address
and every value, the write returns with nesting budget 2. The byte writes issued by the
object-memory DMA (160 of them, all in `[0xfe00, 0xfea0)`) and by the video DMA (at most
2048, all in `[0x8000, 0xa7f0)`) never target a reserved I/O address or a sound window:
each of them is a raw store that returns without nesting, so both loops return. -/
theorem write_terminates (env : Env σ ρ) (hv : env.io.valid) (fuel : Nat) (cpu : CPU σ ρ)
    (addr value : Nat) (hsz : cpu.Cartridge.ROMSize ≤ 6) :
    (∃ cpu1, SetMemory8 env (fuel + 2) cpu addr value = .done cpu1) ∧
    (∀ (write : CPU σ ρ → Nat → Nat → Outcome σ ρ) (cpu0 : CPU σ ρ) (start : Nat),
      copyLoop env (guardWrite 0xfe00 0xfea0 write) start 0xfe00 160 0 cpu0
        = copyLoop env write start 0xfe00 160 0 cpu0) ∧
    (∀ (write : CPU σ ρ → Nat → Nat → Outcome σ ρ) (cpu0 : CPU σ ρ),
      hdmaTransfer env (guardWrite 0x8000 0xa7f0 write) cpu0 = hdmaTransfer env write cpu0) ∧
    (∀ cpu0 : CPU σ ρ, ((FetchMemory8 env cpu0 env.io.HDMA5IO &&& 0x7f) + 1) * 16 ≤ 2048) ∧
    (∀ a, (0xfe00 ≤ a ∧ a < 0xfea0) ∨ (0x8000 ≤ a ∧ a < 0xa7f0) →
      a ∉ env.io.all ∧ ¬ (0xff10 ≤ a ∧ a ≤ 0xff3f) ∧
      ∀ (cpu0 : CPU σ ρ) (v : Nat),
        SetMemory8 env (fuel + 1) cpu0 a v = .done (storeRegion env cpu0 a v)) ∧
    (∀ (cpu0 : CPU σ ρ) (start : Nat),
      copyLoop env (SetMemory8 env (fuel + 1)) start 0xfe00 160 0 cpu0
        = .done (copyPure env start 0xfe00 160 0 cpu0)) ∧
    (∀ cpu0 : CPU σ ρ,
      hdmaTransfer env (SetMemory8 env (fuel + 1)) cpu0 = .done (hdmaPure env cpu0)) := by
  refine ⟨?_, fun write cpu0 start => ?_, fun write cpu0 => ?_,
    fun cpu0 => hdma_length_bound _, fun a ha => ⟨fun hmem => ?_, by omega, fun cpu0 v => ?_⟩,
    fun cpu0 start => dmaLoop_plain env hv fuel cpu0 start,
    fun cpu0 => hdmaTransfer_plain env hv fuel cpu0⟩
  · by_cases hlow : addr ≤ 0x7fff
    · obtain ⟨r, q, m, k, h⟩ := controllerCommand_frame cpu addr value hsz
      exact ⟨_, by rw [SetMemory8_command env (fuel + 1) cpu addr value hlow, h]⟩
    · exact ⟨_, SetMemory8_upper env hv fuel cpu addr value (by omega)⟩
  · apply copyLoop_guard
    intro j hj
    omega
  · apply hdmaTransfer_guard
    intro j hj
    obtain ⟨h1, h2⟩ := hdmaTo_bounds env cpu0
    have hlen := hdma_length_bound (FetchMemory8 env cpu0 env.io.HDMA5IO)
    have : (hdmaTo env cpu0 + j) % 65536 = hdmaTo env cpu0 + j := Nat.mod_eq_of_lt (by omega)
    omega
  · have := hv.2 a hmem
    omega
  · exact SetMemory8_plain env hv fuel cpu0 a v (by omega) (by omega)

/-- Instance of C20: the write of `0x80` to the object-memory DMA trigger `0xff46`
returns with nesting budget 2. -/
theorem write_terminates_witness :
    ∃ cpu1, SetMemory8 sampleEnv 2 (sampleCPU "MBC1" 5 true) 0xff46 0x80 = .done cpu1 :=
  (write_terminates sampleEnv (by decide) 0 (sampleCPU "MBC1" 5 true) 0xff46 0x80
    (by decide)).1

end Lemmas

end Emulator
